import Mathlib

/-!
# Verification of the assembly-emulator core (`src/core/cpu.ts`, assembler)

Shallow embedding of the emulator's CPU stepper (`executeInstruction`) and of
the two-pass assembler (`compile`), translated from the TypeScript source.
JavaScript numbers are modelled as `Int`; JavaScript bitwise operations
(which act on the 32-bit two's-complement image of their operands) are
modelled by explicit `emod` arithmetic or by the `js*` helpers below;
`Uint8Array` reads and writes are modelled by `read8`/`writeMem`
(out-of-range writes are no-ops, and stores keep the low byte, matching
typed-array semantics). Strings are modelled as `List Char`.
-/

namespace AsmEmu

abbrev Str := List Char

/-- The 32-bit unsigned image of a JS number (`ToUint32`). -/
def jsToUint32 (x : Int) : Nat := (x % 4294967296).toNat

/-- The 32-bit signed image of a JS number (`ToInt32`). -/
def jsToInt32 (x : Int) : Int := ((x + 2147483648) % 4294967296) - 2147483648

/-- Reinterpret a 32-bit unsigned value as a signed JS number. -/
def jsIntOfUint32 (n : Nat) : Int :=
  if n < 2147483648 then (n : Int) else (n : Int) - 4294967296

/-- JS `a & b`. -/
def jsAnd (a b : Int) : Int := jsIntOfUint32 (jsToUint32 a &&& jsToUint32 b)

/-- JS `a | b`. -/
def jsOr (a b : Int) : Int := jsIntOfUint32 (jsToUint32 a ||| jsToUint32 b)

/-- JS `a ^ b`. -/
def jsXor (a b : Int) : Int := jsIntOfUint32 (jsToUint32 a ^^^ jsToUint32 b)

/-- JS `x >> 8` (arithmetic shift of the 32-bit image). -/
def jsShr8 (x : Int) : Int := (jsToInt32 x) / 256

/-- JS `x << 16`. -/
def jsShl16 (x : Int) : Int := jsToInt32 (jsToInt32 x * 65536)

/-- JS `(d << 24) >> 24` for `d ∈ [0, 256)`: sign-extend an 8-bit value. -/
def sext8 (d : Int) : Int := if 128 ≤ d then d - 256 else d

/-- JS `(d << 16) >> 16` for `d ∈ [0, 65536)`: sign-extend a 16-bit value. -/
def sext16 (d : Int) : Int := if 32768 ≤ d then d - 65536 else d

/-! ## Memory (`Uint8Array` of size `MEMORY_SIZE = 65536`) -/

abbrev Mem := Nat → Nat

def MEMORY_SIZE : Nat := 65536

/-- Read one byte. In-range reads return the stored byte; an out-of-range
read of a `Uint8Array` yields `undefined`, which coerces to `0` in every
arithmetic context the stepper uses it in. -/
def read8 (m : Mem) (a : Int) : Int :=
  if 0 ≤ a ∧ a < 65536 then ((m a.toNat % 256 : Nat) : Int) else 0

/-- Little-endian 16-bit read: `(high << 8) | low` on two byte reads. -/
def read16 (m : Mem) (a : Int) : Int := read8 m a + 256 * read8 m (a + 1)

/-- A `Uint8Array` store: out-of-range indices are ignored; stored values are
reduced `ToUint8` (mod 256). -/
def writeMem (m : Mem) (a : Int) (v : Int) : Mem :=
  if 0 ≤ a ∧ a < 65536 then
    fun x => if x = a.toNat then (v % 256).toNat else m x
  else m

/-! ## Register file (`Registers`, `getRegisterRef`, `getReg`, `setReg`) -/

structure Registers where
  AX : Int
  BX : Int
  CX : Int
  DX : Int
  SP : Int
  BP : Int
  SI : Int
  DI : Int
  CS : Int
  DS : Int
  ES : Int
  SS : Int
  IP : Int
deriving DecidableEq, Repr

inductive RegKey
  | AX | CX | DX | BX | SP | BP | SI | DI
deriving DecidableEq, Repr

def regGet (r : Registers) : RegKey → Int
  | .AX => r.AX
  | .CX => r.CX
  | .DX => r.DX
  | .BX => r.BX
  | .SP => r.SP
  | .BP => r.BP
  | .SI => r.SI
  | .DI => r.DI

def regSet (r : Registers) (k : RegKey) (v : Int) : Registers :=
  match k with
  | .AX => { r with AX := v }
  | .CX => { r with CX := v }
  | .DX => { r with DX := v }
  | .BX => { r with BX := v }
  | .SP => { r with SP := v }
  | .BP => { r with BP := v }
  | .SI => { r with SI := v }
  | .DI => { r with DI := v }

structure RegRef where
  key : RegKey
  high : Bool
  is8Bit : Bool

/-- Model of `getRegisterRef`: ids 8..15 are the 16-bit registers, ids 0..7 the
8-bit halves (0..3 low, 4..7 high). For ids ≥ 16 the source indexes past
the end of its key array (`keys[id - 8]` is `undefined`); we return `none`
there, and `getReg`/`setReg` below document the corresponding behaviour. -/
def getRegisterRef (id : Nat) : Option RegRef :=
  if 8 ≤ id then
    (([RegKey.AX, .CX, .DX, .BX, .SP, .BP, .SI, .DI]).get? (id - 8)).map
      (fun k => ⟨k, false, false⟩)
  else
    (([RegKey.AX, .CX, .DX, .BX]).get? (id % 4)).map
      (fun k => ⟨k, decide (4 ≤ id), true⟩)

/-- Model of `getReg`. For ids ≥ 16 the source reads an `undefined` property and
returns `undefined`; we return `0` (the theorems below restrict to valid
ids 0..15, where the two agree). -/
def getReg (r : Registers) (id : Nat) : Int :=
  match getRegisterRef id with
  | none => 0
  | some ref =>
    let val := regGet r ref.key
    if ref.is8Bit then
      if ref.high then (jsShr8 val) % 256 else val % 256
    else val

/-- Model of `setReg`. The 8-bit paths compute
`(current & mask) | ((val & 0xFF) << shift)`; since the two operands of the
`|` occupy disjoint bit ranges it is a sum, and `x & 0xFF = x % 256`,
`x & 0xFF00 = x % 65536 - x % 256` on the 32-bit image. For ids ≥ 16
the source assigns to an `undefined` key, leaving every named register
unchanged; we return `r` unchanged. -/
def setReg (r : Registers) (id : Nat) (v : Int) : Registers :=
  match getRegisterRef id with
  | none => r
  | some ref =>
    if ref.is8Bit then
      let current := regGet r ref.key
      let newVal :=
        if ref.high then current % 256 + (v % 256) * 256
        else (current % 65536 - current % 256) + v % 256
      regSet r ref.key newVal
    else regSet r ref.key (v % 65536)

/-! ## Flags and `updateFlags` -/

structure Flags where
  CF : Bool
  PF : Bool
  AF : Bool
  ZF : Bool
  SF : Bool
  TF : Bool
  IF : Bool
  DF : Bool
  OF : Bool
deriving DecidableEq, Repr

/-- Model of `updateFlags`: `ZF = ((result & max) === 0)`,
`SF = ((result & msb) !== 0)`, `CF = (result > max || result < 0)`,
with `max = 0xFF/0xFFFF`, `msb = 0x80/0x8000`. On the 32-bit image,
`result & max = result.emod (max+1)` and `result & msb ≠ 0` iff
`msb ≤ result.emod (max+1)` (note `2 * msb = max + 1`). -/
def updateFlags (f : Flags) (result : Int) (is8Bit : Bool) : Flags :=
  let max : Int := if is8Bit then 255 else 65535
  let msb : Int := if is8Bit then 128 else 32768
  { f with
    ZF := decide (result % (max + 1) = 0)
    SF := decide (msb ≤ result % (max + 1))
    CF := decide (max < result ∨ result < 0) }

/-! ## CPU state -/

inductive Status
  | idle | running | paused | error
deriving DecidableEq, Repr

structure CPUState where
  memory : Mem
  registers : Registers
  flags : Flags
  status : Status
  error : Option Str
  logs : List Str

structure ExecutionResult where
  newState : CPUState
  output : Option Str
  halted : Bool

def INITIAL_REGISTERS : Registers :=
  { AX := 0, BX := 0, CX := 0, DX := 0, SP := 0xFFFE, BP := 0, SI := 0, DI := 0,
    CS := 0, DS := 0, ES := 0, SS := 0, IP := 0x100 }

def INITIAL_FLAGS : Flags :=
  { CF := false, PF := false, AF := false, ZF := false, SF := false,
    TF := false, IF := false, DF := false, OF := false }

def createInitialState : CPUState :=
  { memory := fun _ => 0, registers := INITIAL_REGISTERS, flags := INITIAL_FLAGS,
    status := .idle, error := none, logs := [] }

/-! ## The instruction stepper (`executeInstruction`) -/

def msgIPOOB : Str := "IP out of bounds".toList
def msgMemOOB : Str := "Memory Access Out of Bounds".toList
def msgOOB : Str := "OOB".toList
def msgDivZero : Str := "Divide by Zero".toList
def msgDivOvf : Str := "Divide Overflow".toList

/-- Guarded memory load used by the register ↔ memory cases: 8-bit loads
check `addr >= MEMORY_SIZE`, 16-bit loads check `addr + 1 >= MEMORY_SIZE`
and read little-endian. -/
def loadVal (m : Mem) (addr : Int) (is8 : Bool) (msg : Str) : Except Str Int :=
  if is8 then
    if 65536 ≤ addr then .error msg else .ok (read8 m addr)
  else
    if 65536 ≤ addr + 1 then .error msg else .ok (read16 m addr)

/-- Guarded memory store: low byte at `addr`, high byte (`(val >> 8) & 0xFF`)
at `addr + 1` for 16-bit stores. -/
def storeVal (m : Mem) (addr : Int) (v : Int) (is8 : Bool) (msg : Str) : Except Str Mem :=
  if is8 then
    if 65536 ≤ addr then .error msg else .ok (writeMem m addr (v % 256))
  else
    if 65536 ≤ addr + 1 then .error msg
    else .ok (writeMem (writeMem m addr (v % 256)) (addr + 1) ((jsShr8 v) % 256))

/-- The inner `switch (op)` of the conditional-jump case. -/
def jccCond (op : Nat) (f : Flags) : Bool :=
  if op = 0x74 then f.ZF
  else if op = 0x75 then !f.ZF
  else if op = 0x7C then f.SF != f.OF
  else if op = 0x7E then f.ZF || (f.SF != f.OF)
  else if op = 0x7F then !f.ZF && (f.SF == f.OF)
  else if op = 0x7D then f.SF == f.OF
  else if op = 0x72 then f.CF
  else if op = 0x76 then f.CF || f.ZF
  else if op = 0x77 then !f.CF && !f.ZF
  else if op = 0x73 then !f.CF
  else false

/-- The `while (addr < 65536)` loop of `INT 21h`/`AH=09`: collect bytes
until the first `0x24` (`$`), stopping at the end of memory. Structural
fuel `65536 - addr` matches the loop's iteration count exactly. -/
def readStringAux (m : Mem) : Nat → Int → Str
  | 0, _ => []
  | fuel + 1, addr =>
    if addr < 65536 then
      let c := read8 m addr
      if c = 36 then []
      else Char.ofNat c.toNat :: readStringAux m fuel (addr + 1)
    else []

def readString (m : Mem) (addr : Int) : Str := readStringAux m (65536 - addr).toNat addr

/-- JS `(res >>> 16) & 0xFFFF`. -/
def jsShrU16 (x : Int) : Int := (x % 4294967296) / 65536 % 65536

/-- One step of the processor: decode the byte at `IP`, execute it, and
return the successor state (faults are `Except.error`). Registers and
flags are copied into the successor; memory mutations are threaded
functionally. The opcode dispatch follows the source's `switch` in order;
note that `OPCODES.NOP` and `OPCODES.ADD_MEM_REG` are both `0x90`, and in
a JS `switch` the first matching case (`NOP`) wins, so there is no
`ADD_MEM_REG` branch below (it is unreachable in the source). Opcodes with
no case fall through to the final catch-all, which returns the state with
only `IP` advanced past the opcode byte. -/
def executeInstruction (s : CPUState) : Except Str ExecutionResult :=
  let m := s.memory
  let regs := s.registers
  let flags := s.flags
  let ip0 := regs.IP
  if 65536 ≤ ip0 then .error msgIPOOB else
  let op : Nat := (read8 m ip0).toNat
  let ip : Int := ip0 + 1
  -- `newState` with `IP` advanced past the opcode byte
  let s1 : CPUState := { s with registers := { regs with IP := ip } }
  if op = 0x90 then .ok ⟨s1, none, false⟩                           -- NOP
  else if op = 0xF4 then .ok ⟨s1, none, true⟩                       -- HLT
  else if op = 0x10 then                                            -- MOV r,r
    let b := read8 m ip
    let dest := (b / 16 % 16).toNat
    let src := (b % 16).toNat
    let val := getReg regs src
    .ok ⟨{ s with registers := { setReg regs dest val with IP := ip + 1 } }, none, false⟩
  else if op = 0x11 then                                            -- MOV r,imm
    let dest := (read8 m ip).toNat
    let val := read16 m (ip + 1)
    .ok ⟨{ s with registers := { setReg regs dest val with IP := ip + 3 } }, none, false⟩
  else if op = 0x8A then                                            -- MOV r,[base+idx]
    let dest := (read8 m ip).toNat
    let indexRegId := (read8 m (ip + 1)).toNat
    let addrBase := read16 m (ip + 2)
    let effAddr := (addrBase + getReg regs indexRegId) % 65536
    let is8 := decide (dest < 8)
    match loadVal m effAddr is8 msgMemOOB with
    | .error e => .error e
    | .ok val =>
      .ok ⟨{ s with registers := { setReg regs dest val with IP := ip + 4 } }, none, false⟩
  else if op = 0x88 then                                            -- MOV [base+idx],r
    let indexRegId := (read8 m ip).toNat
    let addrBase := read16 m (ip + 1)
    let src := (read8 m (ip + 3)).toNat
    let effAddr := (addrBase + getReg regs indexRegId) % 65536
    let val := getReg regs src
    match storeVal m effAddr val (decide (src < 8)) msgMemOOB with
    | .error e => .error e
    | .ok m2 =>
      .ok ⟨{ s with memory := m2, registers := { regs with IP := ip + 4 } }, none, false⟩
  else if op = 0x8B then                                            -- MOV r,[addr]
    let dest := (read8 m ip).toNat
    let addr := read16 m (ip + 1)
    match loadVal m addr (decide (dest < 8)) msgMemOOB with
    | .error e => .error e
    | .ok val =>
      .ok ⟨{ s with registers := { setReg regs dest val with IP := ip + 3 } }, none, false⟩
  else if op = 0x89 then                                            -- MOV [addr],r
    let addr := read16 m ip
    let src := (read8 m (ip + 2)).toNat
    let val := getReg regs src
    match storeVal m addr val (decide (src < 8)) msgMemOOB with
    | .error e => .error e
    | .ok m2 =>
      .ok ⟨{ s with memory := m2, registers := { regs with IP := ip + 3 } }, none, false⟩
  else if op = 0xC6 then                                            -- MOV [addr],imm8
    let addr := read16 m ip
    let val := read8 m (ip + 2)
    if 65536 ≤ addr then .error msgMemOOB
    else .ok ⟨{ s with memory := writeMem m addr val,
                       registers := { regs with IP := ip + 3 } }, none, false⟩
  else if op = 0xC7 then                                            -- MOV [base+idx],imm8
    let indexReg := (read8 m ip).toNat
    let addrBase := read16 m (ip + 1)
    let val := read8 m (ip + 3)
    let effAddr := (addrBase + getReg regs indexReg) % 65536
    if 65536 ≤ effAddr then .error msgMemOOB
    else .ok ⟨{ s with memory := writeMem m effAddr val,
                       registers := { regs with IP := ip + 4 } }, none, false⟩
  else if op = 0x24 then                                            -- ADD r,[addr]
    let dest := (read8 m ip).toNat
    let addr := read16 m (ip + 1)
    let is8 := decide (dest < 8)
    match loadVal m addr is8 msgMemOOB with
    | .error e => .error e
    | .ok val2 =>
      let res := getReg regs dest + val2
      .ok ⟨{ s with registers := { setReg regs dest res with IP := ip + 3 },
                    flags := updateFlags flags res is8 }, none, false⟩
  else if op = 0x25 then                                            -- ADD r,[base+idx]
    let dest := (read8 m ip).toNat
    let idx := (read8 m (ip + 1)).toNat
    let base := read16 m (ip + 2)
    let eff := (base + getReg regs idx) % 65536
    let is8 := decide (dest < 8)
    match loadVal m eff is8 msgOOB with
    | .error e => .error e
    | .ok val2 =>
      let res := getReg regs dest + val2
      .ok ⟨{ s with registers := { setReg regs dest res with IP := ip + 4 },
                    flags := updateFlags flags res is8 }, none, false⟩
  else if op = 0x91 then                                            -- ADD [base+idx],r
    let idx := (read8 m ip).toNat
    let base := read16 m (ip + 1)
    let src := (read8 m (ip + 3)).toNat
    let eff := (base + getReg regs idx) % 65536
    let srcVal := getReg regs src
    let is8 := decide (src < 8)
    match loadVal m eff is8 msgMemOOB with
    | .error e => .error e
    | .ok memVal =>
      let res := memVal + srcVal
      match storeVal m eff res is8 msgMemOOB with
      | .error e => .error e
      | .ok m2 =>
        .ok ⟨{ s with memory := m2, registers := { regs with IP := ip + 4 },
                      flags := updateFlags flags res is8 }, none, false⟩
  else if op = 0x92 then                                            -- ADD [addr],imm8
    let addr := read16 m ip
    let imm := read8 m (ip + 2)
    if 65536 ≤ addr then .error msgMemOOB
    else
      let res := read8 m addr + imm
      .ok ⟨{ s with memory := writeMem m addr (res % 256),
                    registers := { regs with IP := ip + 3 },
                    flags := updateFlags flags res true }, none, false⟩
  else if op = 0x93 then                                            -- ADD [base+idx],imm8
    let idx := (read8 m ip).toNat
    let base := read16 m (ip + 1)
    let imm := read8 m (ip + 3)
    let eff := (base + getReg regs idx) % 65536
    if 65536 ≤ eff then .error msgMemOOB
    else
      let res := read8 m eff + imm
      .ok ⟨{ s with memory := writeMem m eff (res % 256),
                    registers := { regs with IP := ip + 4 },
                    flags := updateFlags flags res true }, none, false⟩
  else if op = 0x34 then                                            -- SUB r,[addr]
    let dest := (read8 m ip).toNat
    let addr := read16 m (ip + 1)
    let is8 := decide (dest < 8)
    match loadVal m addr is8 msgMemOOB with
    | .error e => .error e
    | .ok val2 =>
      let res := getReg regs dest - val2
      .ok ⟨{ s with registers := { setReg regs dest res with IP := ip + 3 },
                    flags := updateFlags flags res is8 }, none, false⟩
  else if op = 0x35 then                                            -- SUB r,[base+idx]
    let dest := (read8 m ip).toNat
    let idx := (read8 m (ip + 1)).toNat
    let base := read16 m (ip + 2)
    let eff := (base + getReg regs idx) % 65536
    let is8 := decide (dest < 8)
    match loadVal m eff is8 msgMemOOB with
    | .error e => .error e
    | .ok val2 =>
      let res := getReg regs dest - val2
      .ok ⟨{ s with registers := { setReg regs dest res with IP := ip + 4 },
                    flags := updateFlags flags res is8 }, none, false⟩
  else if op = 0x94 then                                            -- SUB [addr],r
    let addr := read16 m ip
    let src := (read8 m (ip + 2)).toNat
    let b := getReg regs src
    let is8 := decide (src < 8)
    match loadVal m addr is8 msgMemOOB with
    | .error e => .error e
    | .ok a =>
      let r := a - b
      match storeVal m addr r is8 msgMemOOB with
      | .error e => .error e
      | .ok m2 =>
        .ok ⟨{ s with memory := m2, registers := { regs with IP := ip + 3 },
                      flags := updateFlags flags r is8 }, none, false⟩
  else if op = 0x96 then                                            -- SUB [addr],imm8
    let addr := read16 m ip
    let b := read8 m (ip + 2)
    if 65536 ≤ addr then .error msgMemOOB
    else
      let r := read8 m addr - b
      .ok ⟨{ s with memory := writeMem m addr (r % 256),
                    registers := { regs with IP := ip + 3 },
                    flags := updateFlags flags r true }, none, false⟩
  else if op = 0x3C then                                            -- CMP r,[addr]
    let dest := (read8 m ip).toNat
    let addr := read16 m (ip + 1)
    let is8 := decide (dest < 8)
    match loadVal m addr is8 msgMemOOB with
    | .error e => .error e
    | .ok val2 =>
      let res := getReg regs dest - val2
      .ok ⟨{ s with registers := { regs with IP := ip + 3 },
                    flags := updateFlags flags res is8 }, none, false⟩
  else if op = 0x3D then                                            -- CMP r,[base+idx]
    let dest := (read8 m ip).toNat
    let idx := (read8 m (ip + 1)).toNat
    let base := read16 m (ip + 2)
    let eff := (base + getReg regs idx) % 65536
    let is8 := decide (dest < 8)
    match loadVal m eff is8 msgMemOOB with
    | .error e => .error e
    | .ok val2 =>
      let res := getReg regs dest - val2
      .ok ⟨{ s with registers := { regs with IP := ip + 4 },
                    flags := updateFlags flags res is8 }, none, false⟩
  else if op = 0x3E then                                            -- CMP [addr],r
    let addr := read16 m ip
    let src := (read8 m (ip + 2)).toNat
    let b := getReg regs src
    let is8 := decide (src < 8)
    match loadVal m addr is8 msgMemOOB with
    | .error e => .error e
    | .ok a =>
      .ok ⟨{ s with registers := { regs with IP := ip + 3 },
                    flags := updateFlags flags (a - b) is8 }, none, false⟩
  else if op = 0x42 then                                            -- CMP [addr],imm8
    let addr := read16 m ip
    let b := read8 m (ip + 2)
    if 65536 ≤ addr then .error msgMemOOB
    else
      .ok ⟨{ s with registers := { regs with IP := ip + 3 },
                    flags := updateFlags flags (read8 m addr - b) true }, none, false⟩
  else if op = 0x3F then                                            -- CMP [base+idx],r
    let idx := (read8 m ip).toNat
    let base := read16 m (ip + 1)
    let src := (read8 m (ip + 3)).toNat
    let eff := (base + getReg regs idx) % 65536
    let b := getReg regs src
    let is8 := decide (src < 8)
    match loadVal m eff is8 msgOOB with
    | .error e => .error e
    | .ok a =>
      .ok ⟨{ s with registers := { regs with IP := ip + 4 },
                    flags := updateFlags flags (a - b) is8 }, none, false⟩
  else if op = 0x43 then                                            -- CMP [base+idx],imm8
    let idx := (read8 m ip).toNat
    let base := read16 m (ip + 1)
    let b := read8 m (ip + 3)
    let eff := (base + getReg regs idx) % 65536
    if 65536 ≤ eff then .error msgOOB
    else
      .ok ⟨{ s with registers := { regs with IP := ip + 4 },
                    flags := updateFlags flags (read8 m eff - b) true }, none, false⟩
  else if op = 0xA4 then                                            -- INC [addr]
    let addr := read16 m ip
    if 65536 ≤ addr then .error msgMemOOB
    else
      let r := read8 m addr + 1
      .ok ⟨{ s with memory := writeMem m addr (r % 256),
                    registers := { regs with IP := ip + 2 },
                    flags := updateFlags flags r true }, none, false⟩
  else if op = 0xA5 then                                            -- INC [base+idx]
    let idx := (read8 m ip).toNat
    let base := read16 m (ip + 1)
    let eff := (base + getReg regs idx) % 65536
    if 65536 ≤ eff then .error msgMemOOB
    else
      let r := read8 m eff + 1
      .ok ⟨{ s with memory := writeMem m eff (r % 256),
                    registers := { regs with IP := ip + 3 },
                    flags := updateFlags flags r true }, none, false⟩
  else if op = 0x26 then                                            -- AND r,[addr]
    let dest := (read8 m ip).toNat
    let addr := read16 m (ip + 1)
    let is8 := decide (dest < 8)
    match loadVal m addr is8 msgMemOOB with
    | .error e => .error e
    | .ok val2 =>
      let res := jsAnd (getReg regs dest) val2
      .ok ⟨{ s with registers := { setReg regs dest res with IP := ip + 3 },
                    flags := updateFlags flags res is8 }, none, false⟩
  else if op = 0x27 then                                            -- AND r,[base+idx]
    let dest := (read8 m ip).toNat
    let idx := (read8 m (ip + 1)).toNat
    let base := read16 m (ip + 2)
    let eff := (base + getReg regs idx) % 65536
    let is8 := decide (dest < 8)
    match loadVal m eff is8 msgMemOOB with
    | .error e => .error e
    | .ok val2 =>
      let res := jsAnd (getReg regs dest) val2
      .ok ⟨{ s with registers := { setReg regs dest res with IP := ip + 4 },
                    flags := updateFlags flags res is8 }, none, false⟩
  else if op = 0x0C then                                            -- OR r,[addr]
    let dest := (read8 m ip).toNat
    let addr := read16 m (ip + 1)
    let is8 := decide (dest < 8)
    match loadVal m addr is8 msgMemOOB with
    | .error e => .error e
    | .ok val2 =>
      let res := jsOr (getReg regs dest) val2
      .ok ⟨{ s with registers := { setReg regs dest res with IP := ip + 3 },
                    flags := updateFlags flags res is8 }, none, false⟩
  else if op = 0x0D then                                            -- OR r,[base+idx]
    let dest := (read8 m ip).toNat
    let idx := (read8 m (ip + 1)).toNat
    let base := read16 m (ip + 2)
    let eff := (base + getReg regs idx) % 65536
    let is8 := decide (dest < 8)
    match loadVal m eff is8 msgMemOOB with
    | .error e => .error e
    | .ok val2 =>
      let res := jsOr (getReg regs dest) val2
      .ok ⟨{ s with registers := { setReg regs dest res with IP := ip + 4 },
                    flags := updateFlags flags res is8 }, none, false⟩
  else if op = 0x36 then                                            -- XOR r,[addr]
    let dest := (read8 m ip).toNat
    let addr := read16 m (ip + 1)
    let is8 := decide (dest < 8)
    match loadVal m addr is8 msgMemOOB with
    | .error e => .error e
    | .ok val2 =>
      let res := jsXor (getReg regs dest) val2
      .ok ⟨{ s with registers := { setReg regs dest res with IP := ip + 3 },
                    flags := updateFlags flags res is8 }, none, false⟩
  else if op = 0x37 then                                            -- XOR r,[base+idx]
    let dest := (read8 m ip).toNat
    let idx := (read8 m (ip + 1)).toNat
    let base := read16 m (ip + 2)
    let eff := (base + getReg regs idx) % 65536
    let is8 := decide (dest < 8)
    match loadVal m eff is8 msgMemOOB with
    | .error e => .error e
    | .ok val2 =>
      let res := jsXor (getReg regs dest) val2
      .ok ⟨{ s with registers := { setReg regs dest res with IP := ip + 4 },
                    flags := updateFlags flags res is8 }, none, false⟩
  else if op = 0x20 then                                            -- ADD r,r
    let b := read8 m ip
    let dest := (b / 16 % 16).toNat
    let src := (b % 16).toNat
    let res := getReg regs dest + getReg regs src
    .ok ⟨{ s with registers := { setReg regs dest res with IP := ip + 1 },
                  flags := updateFlags flags res (decide (dest < 8)) }, none, false⟩
  else if op = 0x21 then                                            -- ADD r,imm
    let dest := (read8 m ip).toNat
    let val2 := read16 m (ip + 1)
    let res := getReg regs dest + val2
    .ok ⟨{ s with registers := { setReg regs dest res with IP := ip + 3 },
                  flags := updateFlags flags res (decide (dest < 8)) }, none, false⟩
  else if op = 0x30 then                                            -- SUB r,r
    let b := read8 m ip
    let dest := (b / 16 % 16).toNat
    let src := (b % 16).toNat
    let res := getReg regs dest - getReg regs src
    .ok ⟨{ s with registers := { setReg regs dest res with IP := ip + 1 },
                  flags := updateFlags flags res (decide (dest < 8)) }, none, false⟩
  else if op = 0x31 then                                            -- SUB r,imm
    let dest := (read8 m ip).toNat
    let val2 := read16 m (ip + 1)
    let res := getReg regs dest - val2
    .ok ⟨{ s with registers := { setReg regs dest res with IP := ip + 3 },
                  flags := updateFlags flags res (decide (dest < 8)) }, none, false⟩
  else if op = 0x38 then                                            -- CMP r,r
    let b := read8 m ip
    let dest := (b / 16 % 16).toNat
    let src := (b % 16).toNat
    let res := getReg regs dest - getReg regs src
    .ok ⟨{ s with registers := { regs with IP := ip + 1 },
                  flags := updateFlags flags res (decide (dest < 8)) }, none, false⟩
  else if op = 0x39 then                                            -- CMP r,imm
    let dest := (read8 m ip).toNat
    let val2 := read16 m (ip + 1)
    let res := getReg regs dest - val2
    .ok ⟨{ s with registers := { regs with IP := ip + 3 },
                  flags := updateFlags flags res (decide (dest < 8)) }, none, false⟩
  else if op = 0x40 then                                            -- INC r
    let dest := (read8 m ip).toNat
    let res := getReg regs dest + 1
    .ok ⟨{ s with registers := { setReg regs dest res with IP := ip + 1 },
                  flags := updateFlags flags res (decide (dest < 8)) }, none, false⟩
  else if op = 0x41 then                                            -- DEC r
    let dest := (read8 m ip).toNat
    let res := getReg regs dest - 1
    .ok ⟨{ s with registers := { setReg regs dest res with IP := ip + 1 },
                  flags := updateFlags flags res (decide (dest < 8)) }, none, false⟩
  else if op = 0xF6 then                                            -- MUL r
    let src := (read8 m ip).toNat
    let val := getReg regs src
    if src < 8 then
      let al := regs.AX % 256
      let res := al * val
      .ok ⟨{ s with registers := { regs with AX := res, IP := ip + 1 },
                    flags := updateFlags flags res false }, none, false⟩
    else
      let res := regs.AX * val
      .ok ⟨{ s with registers := { regs with AX := res % 65536, DX := jsShrU16 res,
                                             IP := ip + 1 },
                    flags := updateFlags flags res false }, none, false⟩
  else if op = 0xF7 then                                            -- DIV r
    let src := (read8 m ip).toNat
    let val := getReg regs src
    if val = 0 then
      .ok ⟨{ s with registers := { regs with IP := ip + 1 },
                    error := some msgDivZero, status := .error }, none, false⟩
    else if src < 8 then
      let ax := regs.AX
      let quot := ax.fdiv val
      let rem := ax.tmod val
      if 255 < quot then
        .ok ⟨{ s with registers := { regs with IP := ip + 1 },
                      error := some msgDivOvf, status := .error }, none, false⟩
      else
        -- AL := quot, AH := rem
        .ok ⟨{ s with registers := setReg (setReg { regs with IP := ip + 1 } 0 quot) 4 rem },
              none, false⟩
    else
      let dxax := jsOr (jsShl16 regs.DX) regs.AX
      let quot := dxax.fdiv val
      let rem := dxax.tmod val
      if 65535 < quot then
        .ok ⟨{ s with registers := { regs with IP := ip + 1 },
                      error := some msgDivOvf, status := .error }, none, false⟩
      else
        .ok ⟨{ s with registers := { regs with AX := quot, DX := rem, IP := ip + 1 } },
              none, false⟩
  else if op = 0xF8 then                                            -- NOT r
    let dest := (read8 m ip).toNat
    let mask : Int := if dest < 8 then 255 else 65535
    -- JS: (~val) & mask = (-(val + 1)) % (mask + 1)
    let res := (-(getReg regs dest + 1)) % (mask + 1)
    .ok ⟨{ s with registers := { setReg regs dest res with IP := ip + 1 } }, none, false⟩
  else if op = 0x22 then                                            -- AND r,r
    let b := read8 m ip
    let dest := (b / 16 % 16).toNat
    let src := (b % 16).toNat
    let res := jsAnd (getReg regs dest) (getReg regs src)
    .ok ⟨{ s with registers := { setReg regs dest res with IP := ip + 1 },
                  flags := updateFlags flags res (decide (dest < 8)) }, none, false⟩
  else if op = 0x23 then                                            -- AND r,imm
    let dest := (read8 m ip).toNat
    let val2 := read16 m (ip + 1)
    let res := jsAnd (getReg regs dest) val2
    .ok ⟨{ s with registers := { setReg regs dest res with IP := ip + 3 },
                  flags := updateFlags flags res (decide (dest < 8)) }, none, false⟩
  else if op = 0x0A then                                            -- OR r,r
    let b := read8 m ip
    let dest := (b / 16 % 16).toNat
    let src := (b % 16).toNat
    let res := jsOr (getReg regs dest) (getReg regs src)
    .ok ⟨{ s with registers := { setReg regs dest res with IP := ip + 1 },
                  flags := updateFlags flags res (decide (dest < 8)) }, none, false⟩
  else if op = 0x0B then                                            -- OR r,imm
    let dest := (read8 m ip).toNat
    let val2 := read16 m (ip + 1)
    let res := jsOr (getReg regs dest) val2
    .ok ⟨{ s with registers := { setReg regs dest res with IP := ip + 3 },
                  flags := updateFlags flags res (decide (dest < 8)) }, none, false⟩
  else if op = 0x32 then                                            -- XOR r,r
    let b := read8 m ip
    let dest := (b / 16 % 16).toNat
    let src := (b % 16).toNat
    let res := jsXor (getReg regs dest) (getReg regs src)
    .ok ⟨{ s with registers := { setReg regs dest res with IP := ip + 1 },
                  flags := updateFlags flags res (decide (dest < 8)) }, none, false⟩
  else if op = 0x33 then                                            -- XOR r,imm
    let dest := (read8 m ip).toNat
    let val2 := read16 m (ip + 1)
    let res := jsXor (getReg regs dest) val2
    .ok ⟨{ s with registers := { setReg regs dest res with IP := ip + 3 },
                  flags := updateFlags flags res (decide (dest < 8)) }, none, false⟩
  else if op = 0xE9 then                                            -- JMP rel16
    let disp := read16 m ip
    .ok ⟨{ s with registers := { regs with IP := (ip + 2 + sext16 disp) % 65536 } },
          none, false⟩
  else if op = 0x74 ∨ op = 0x75 ∨ op = 0x7C ∨ op = 0x7E ∨ op = 0x7F ∨
          op = 0x7D ∨ op = 0x72 ∨ op = 0x76 ∨ op = 0x77 ∨ op = 0x73 then  -- Jcc rel8
    let disp := read8 m ip
    let target : Int := if jccCond op flags then (ip + 1 + sext8 disp) % 65536 else ip + 1
    .ok ⟨{ s with registers := { regs with IP := target } }, none, false⟩
  else if op = 0xE2 then                                            -- LOOP rel8
    let disp := read8 m ip
    let newCx := (regs.CX - 1) % 65536
    let target : Int := if newCx ≠ 0 then (ip + 1 + sext8 disp) % 65536 else ip + 1
    .ok ⟨{ s with registers := { regs with CX := newCx, IP := target } }, none, false⟩
  else if op = 0xCD then                                            -- INT imm8
    let intNo := read8 m ip
    let output : Option Str :=
      if intNo = 33 then
        let ah := (jsShr8 regs.AX) % 256
        if ah = 2 then some [Char.ofNat (regs.DX % 256).toNat]
        else if ah = 9 then some (readString m regs.DX)
        else none
      else none
    .ok ⟨{ s with registers := { regs with IP := ip + 1 } }, output, false⟩
  else
    -- unrecognized opcode: no case matches, fall out of the switch
    .ok ⟨s1, none, false⟩

/-! ## Assembler (`compile` and its helpers)

Source text and all strings are modelled as `Str = List Char`. JS string
methods are modelled by the `js*` helpers; `parseInt` by `jsParseInt`
(leading whitespace, optional sign, optional `0x` for radix 16, longest
valid-digit prefix, `NaN` as `none`). Accessing a property of `undefined`
(e.g. a missing operand) raises a `TypeError`, modelled as `Except.error`
with `msgUndef`. -/

def jsTrim (s : Str) : Str :=
  ((s.dropWhile Char.isWhitespace).reverse.dropWhile Char.isWhitespace).reverse

def jsUpper (s : Str) : Str := s.map Char.toUpper

/-- JS `String.prototype.split` with a single-character separator:
always returns at least one (possibly empty) piece. -/
def splitOnChar (sep : Char) : Str → List Str
  | [] => [[]]
  | c :: rest =>
    match splitOnChar sep rest with
    | [] => [[]]  -- unreachable: the result is always nonempty
    | t :: ts => if c = sep then [] :: t :: ts else (c :: t) :: ts

def jsIndexOfAux (c : Char) : Str → Nat → Option Nat
  | [], _ => none
  | x :: rest, i => if x = c then some i else jsIndexOfAux c rest (i + 1)

/-- JS `s.indexOf(c)`: position of the first occurrence, `-1` if absent. -/
def jsIndexOf (s : Str) (c : Char) : Int :=
  match jsIndexOfAux c s 0 with
  | some i => (i : Int)
  | none => -1

/-- JS `s.substring(a, b)`: clamps both arguments to `[0, length]` and
swaps them when `a > b`. -/
def jsSubstring (s : Str) (a b : Int) : Str :=
  let len : Int := s.length
  let a' := (min (max a 0) len).toNat
  let b' := (min (max b 0) len).toNat
  let lo := min a' b'
  let hi := max a' b'
  (s.drop lo).take (hi - lo)

def jsStartsWithS (s pre : Str) : Bool := pre.isPrefixOf s

def jsEndsWithS (s suf : Str) : Bool := suf.reverse.isPrefixOf s.reverse

/-- The single-quote character `'`. -/
def quoteS : Char := Char.ofNat 39

/-- Value of a character as a digit (JS `parseInt` accepts `0-9a-zA-Z`). -/
def digitVal (c : Char) : Option Nat :=
  if '0' ≤ c ∧ c ≤ '9' then some (c.toNat - 48)
  else if 'A' ≤ c ∧ c ≤ 'Z' then some (c.toNat - 55)
  else if 'a' ≤ c ∧ c ≤ 'z' then some (c.toNat - 87)
  else none

def takeDigits (radix : Nat) : Str → List Nat
  | [] => []
  | c :: rest =>
    match digitVal c with
    | some d => if d < radix then d :: takeDigits radix rest else []
    | none => []

/-- JS `parseInt(s, radix)` for radix 10/16 as used by the assembler. -/
def jsParseInt (s : Str) (radix : Nat) : Option Int :=
  let t := s.dropWhile Char.isWhitespace
  let signAndRest : Int × Str :=
    match t with
    | c :: r => if c = '-' then (-1, r) else if c = '+' then (1, r) else (1, t)
    | [] => (1, t)
  let t2 := signAndRest.2
  let t3 :=
    if radix = 16 then
      match t2 with
      | '0' :: x :: r => if x = 'x' ∨ x = 'X' then r else t2
      | _ => t2
    else t2
  let ds := takeDigits radix t3
  if ds = [] then none
  else some (signAndRest.1 * ((ds.foldl (fun acc d => acc * radix + d) 0 : Nat) : Int))

/-- Model of `parseNumber`: trailing `H` → hex, leading `0x`/`0X` → hex, else
decimal; input is trimmed and upper-cased first. `NaN` is `none`. -/
def parseNumber (s : Str) : Option Int :=
  let str := jsUpper (jsTrim s)
  if jsEndsWithS str ['H'] then jsParseInt str.dropLast 16
  else if jsStartsWithS str ['0', 'X'] then jsParseInt (str.drop 2) 16
  else jsParseInt str 10

/-- Model of `REGISTERS_MAP`. -/
def REGISTERS_MAP (s : Str) : Option Nat :=
  if s = "AL".toList then some 0
  else if s = "CL".toList then some 1
  else if s = "DL".toList then some 2
  else if s = "BL".toList then some 3
  else if s = "AH".toList then some 4
  else if s = "CH".toList then some 5
  else if s = "DH".toList then some 6
  else if s = "BH".toList then some 7
  else if s = "AX".toList then some 8
  else if s = "CX".toList then some 9
  else if s = "DX".toList then some 10
  else if s = "BX".toList then some 11
  else if s = "SP".toList then some 12
  else if s = "BP".toList then some 13
  else if s = "SI".toList then some 14
  else if s = "DI".toList then some 15
  else none

def isReg (s : Str) : Bool := (REGISTERS_MAP (jsUpper s)).isSome

/-- Model of `getRegId`; only called behind `isReg` checks in the source, so the
`0` default for unknown names is never observable. -/
def getRegId (s : Str) : Nat := (REGISTERS_MAP (jsUpper s)).getD 0

/-- The symbol table (`labels` record): later writes shadow earlier ones. -/
abbrev Labels := List (Str × Int)

def msgUndef : Str := "Cannot read properties of undefined".toList

/-- Access `args[i]`; using a missing operand raises a `TypeError`. -/
def jsArg (a : Option Str) : Except Str Str :=
  match a with
  | some s => .ok s
  | none => .error msgUndef

/-- JS `v & 0xFF` on an encoded value. -/
def byteLo (v : Int) : Int := v % 256

/-- JS `(v >> 8) & 0xFF` on an encoded value. -/
def byteHi (v : Int) : Int := (jsShr8 v) % 256

/-- Model of `resolveValue` (the `currentOffset` parameter is unused in the
source body and kept for shape). -/
def resolveValue (s : Str) (labels : Labels) (_currentOffset : Int)
    (allowUnresolved : Bool) : Except Str Int :=
  if jsIndexOf s '[' ≠ -1 ∧ jsIndexOf s ']' ≠ -1 then
    .error "Indexed addressing not supported in direct value resolution.".toList
  else
    match labels.lookup s with
    | some v => .ok v
    | none =>
      match parseNumber s with
      | some n => .ok n
      | none =>
        if allowUnresolved then .ok 0
        else .error ("Invalid value: ".toList ++ s)

/-- Model of `parseIndexed`: recognize `LABEL[REG]`. -/
def parseIndexed (s : Str) (labels : Labels) (currentOffset : Int)
    (allowUnresolved : Bool) : Except Str (Option (Nat × Int)) :=
  let ob := jsIndexOf s '['
  let cb := jsIndexOf s ']'
  if ob ≠ -1 ∧ cb ≠ -1 then
    let labelStr := jsTrim (jsSubstring s 0 ob)
    let regStr := jsTrim (jsSubstring s (ob + 1) cb)
    if !isReg regStr then
      if labelStr = [] then .ok none
      else .error ("Invalid index register: ".toList ++ regStr)
    else
      match (if labelStr ≠ [] then resolveValue labelStr labels currentOffset allowUnresolved
             else .ok 0) with
      | .error e => .error e
      | .ok addr => .ok (some (getRegId regStr, addr))
  else .ok none

/-- Model of `parseMem`: `[expr]`, a known label, or (pass 1 only) an unknown
non-register symbol resolving to address `0`. -/
def parseMem (s : Str) (labels : Labels) (allowUnresolved : Bool) :
    Except Str (Option Int) :=
  if jsStartsWithS s ['['] ∧ jsEndsWithS s [']'] then
    match resolveValue (jsTrim (jsSubstring s 1 ((s.length : Int) - 1))) labels 0
        allowUnresolved with
    | .error e => .error e
    | .ok v => .ok (some v)
  else
    match labels.lookup s with
    | some v => .ok (some v)
    | none =>
      if allowUnresolved then
        match parseNumber s with
        | none => if !isReg s then .ok (some 0) else .ok none
        | some _ => .ok none
      else .ok none

structure ArithOps where
  reg : Nat
  imm : Nat
  mem : Nat
  idx : Nat
  memReg : Nat
  idxReg : Nat
  memImm : Nat
  idxImm : Nat

/-- The per-mnemonic opcode selection of the shared arithmetic block. -/
def arithOpcodes (op : Str) : ArithOps :=
  if op = "ADD".toList then ⟨0x20, 0x21, 0x24, 0x25, 0x90, 0x91, 0x92, 0x93⟩
  else if op = "SUB".toList then ⟨0x30, 0x31, 0x34, 0x35, 0x94, 0x95, 0x96, 0x97⟩
  else if op = "AND".toList then ⟨0x22, 0x23, 0x26, 0x27, 0x98, 0x99, 0x9A, 0x9B⟩
  else if op = "OR".toList then ⟨0x0A, 0x0B, 0x0C, 0x0D, 0x9C, 0x9D, 0x9E, 0x9F⟩
  else if op = "XOR".toList then ⟨0x32, 0x33, 0x36, 0x37, 0xA0, 0xA1, 0xA2, 0xA3⟩
  else if op = "CMP".toList then ⟨0x38, 0x39, 0x3C, 0x3D, 0x3E, 0x3F, 0x42, 0x43⟩
  else ⟨0, 0, 0, 0, 0, 0, 0, 0⟩

structure SingleOps where
  reg : Nat
  mem : Nat
  idx : Nat

def singleOpcodes (op : Str) : SingleOps :=
  if op = "INC".toList then ⟨0x40, 0xA4, 0xA5⟩
  else if op = "DEC".toList then ⟨0x41, 0xA6, 0xA7⟩
  else if op = "NOT".toList then ⟨0xF8, 0xA8, 0xA9⟩
  else if op = "MUL".toList then ⟨0xF6, 0xAA, 0xAB⟩
  else if op = "DIV".toList then ⟨0xF7, 0xAC, 0xAD⟩
  else ⟨0, 0, 0⟩

def JUMPS : List Str :=
  ["JE", "JZ", "JNE", "JNZ", "JL", "JNGE", "JLE", "JNG", "JG", "JNLE",
   "JGE", "JNL", "JB", "JNAE", "JC", "JBE", "JNA", "JA", "JNBE", "JAE",
   "JNB", "JNC"].map String.toList

/-- Lookup of `(OPCODES as any)[op]` for the conditional-jump mnemonics. -/
def jumpOpcode (op : Str) : Nat :=
  if op = "JE".toList ∨ op = "JZ".toList then 0x74
  else if op = "JNE".toList ∨ op = "JNZ".toList then 0x75
  else if op = "JL".toList ∨ op = "JNGE".toList then 0x7C
  else if op = "JLE".toList ∨ op = "JNG".toList then 0x7E
  else if op = "JG".toList ∨ op = "JNLE".toList then 0x7F
  else if op = "JGE".toList ∨ op = "JNL".toList then 0x7D
  else if op = "JB".toList ∨ op = "JNAE".toList ∨ op = "JC".toList then 0x72
  else if op = "JBE".toList ∨ op = "JNA".toList then 0x76
  else if op = "JA".toList ∨ op = "JNBE".toList then 0x77
  else if op = "JAE".toList ∨ op = "JNB".toList ∨ op = "JNC".toList then 0x73
  else 0

def msgMemToMem : Str :=
  "Memory to Memory transfer not allowed. Use a register as intermediate.".toList

def unknownMsg (op : Str) (args : List Str) : Str :=
  "Unknown instruction or mode: ".toList ++ op ++ [' '] ++
    List.intercalate ", ".toList args

/-- Model of `encodeInstruction`: mnemonic + operands → opcode bytes (as JS numbers;
out-of-range values are reduced mod 256 when stored into the image).
Branches that fall off the end of a block in the source reach the final
`Unknown instruction or mode` throw. -/
def encodeInstruction (op0 : Str) (args : List Str) (labels : Labels)
    (currentOffset : Int) (allowUnresolved : Bool) : Except Str (List Int) :=
  let op := jsUpper op0
  if op = "NOP".toList then .ok [0x90]
  else if op = "HLT".toList then .ok [0xF4]
  else if op = "RET".toList then .ok [0xC3]
  else if op = "MOV".toList then
    match jsArg (args.get? 0) with
    | .error e => .error e
    | .ok dest =>
    match parseIndexed dest labels currentOffset allowUnresolved with
    | .error e => .error e
    | .ok destIndexed =>
    match jsArg (args.get? 1) with
    | .error e => .error e
    | .ok src =>
    match parseIndexed src labels currentOffset allowUnresolved with
    | .error e => .error e
    | .ok srcIndexed =>
    match parseMem dest labels allowUnresolved with
    | .error e => .error e
    | .ok destMem =>
    match parseMem src labels allowUnresolved with
    | .error e => .error e
    | .ok srcMem =>
    if (destIndexed.isSome || destMem.isSome) && (srcIndexed.isSome || srcMem.isSome) then
      .error msgMemToMem
    else if isReg dest then
      if isReg src then
        .ok [0x10, ((getRegId dest * 16 + getRegId src : Nat) : Int)]
      else
        match srcIndexed with
        | some si => .ok [0x8A, getRegId dest, si.1, byteLo si.2, byteHi si.2]
        | none =>
          match srcMem with
          | some addr => .ok [0x8B, getRegId dest, byteLo addr, byteHi addr]
          | none =>
            -- legacy fallback: REG ← IMM
            match resolveValue src labels currentOffset allowUnresolved with
            | .error e => .error e
            | .ok val => .ok [0x11, getRegId dest, byteLo val, byteHi val]
    else
      match destIndexed with
      | some di =>
        if isReg src then
          .ok [0x88, di.1, byteLo di.2, byteHi di.2, getRegId src]
        else
          match resolveValue src labels currentOffset allowUnresolved with
          | .error e => .error e
          | .ok val => .ok [0xC7, di.1, byteLo di.2, byteHi di.2, byteLo val]
      | none =>
        match destMem with
        | some dm =>
          if isReg src then
            .ok [0x89, byteLo dm, byteHi dm, getRegId src]
          else
            match resolveValue src labels currentOffset allowUnresolved with
            | .error e => .error e
            | .ok val => .ok [0xC6, byteLo dm, byteHi dm, byteLo val]
        | none =>
          -- the source's trailing `Invalid source for MOV` check is dead
          -- (both operands just failed to parse as memory), so control
          -- falls through every later block to the final throw
          .error (unknownMsg op args)
  else if op = "ADD".toList ∨ op = "SUB".toList ∨ op = "AND".toList ∨
          op = "OR".toList ∨ op = "XOR".toList ∨ op = "CMP".toList then
    match jsArg (args.get? 0) with
    | .error e => .error e
    | .ok dest =>
    match parseIndexed dest labels currentOffset allowUnresolved with
    | .error e => .error e
    | .ok destIndexed =>
    match parseMem dest labels allowUnresolved with
    | .error e => .error e
    | .ok destMem =>
    match jsArg (args.get? 1) with
    | .error e => .error e
    | .ok src =>
    match parseIndexed src labels currentOffset allowUnresolved with
    | .error e => .error e
    | .ok srcIndexed =>
    match parseMem src labels allowUnresolved with
    | .error e => .error e
    | .ok srcMem =>
    if (destIndexed.isSome || destMem.isSome) && (srcIndexed.isSome || srcMem.isSome) then
      .error msgMemToMem
    else
      let opc := arithOpcodes op
      if isReg dest then
        if isReg src then
          .ok [opc.reg, ((getRegId dest * 16 + getRegId src : Nat) : Int)]
        else
          match srcIndexed with
          | some si => .ok [opc.idx, getRegId dest, si.1, byteLo si.2, byteHi si.2]
          | none =>
            match srcMem with
            | some addr => .ok [opc.mem, getRegId dest, byteLo addr, byteHi addr]
            | none =>
              match resolveValue src labels currentOffset allowUnresolved with
              | .error e => .error e
              | .ok val => .ok [opc.imm, getRegId dest, byteLo val, byteHi val]
      else
        match destIndexed with
        | some di =>
          if isReg src then
            .ok [opc.idxReg, di.1, byteLo di.2, byteHi di.2, getRegId src]
          else
            match resolveValue src labels currentOffset allowUnresolved with
            | .error e => .error e
            | .ok val => .ok [opc.idxImm, di.1, byteLo di.2, byteHi di.2, byteLo val]
        | none =>
          match destMem with
          | some dm =>
            if isReg src then
              .ok [opc.memReg, byteLo dm, byteHi dm, getRegId src]
            else
              match resolveValue src labels currentOffset allowUnresolved with
              | .error e => .error e
              | .ok val => .ok [opc.memImm, byteLo dm, byteHi dm, byteLo val]
          | none => .error (unknownMsg op args)
  else if op = "INC".toList ∨ op = "DEC".toList ∨ op = "MUL".toList ∨
          op = "DIV".toList ∨ op = "NOT".toList then
    match jsArg (args.get? 0) with
    | .error e => .error e
    | .ok dest =>
    let opc := singleOpcodes op
    if isReg dest then .ok [opc.reg, getRegId dest]
    else
      match parseIndexed dest labels currentOffset allowUnresolved with
      | .error e => .error e
      | .ok destIndexed =>
      match destIndexed with
      | some di => .ok [opc.idx, di.1, byteLo di.2, byteHi di.2]
      | none =>
        match parseMem dest labels allowUnresolved with
        | .error e => .error e
        | .ok destMem =>
        match destMem with
        | some dm => .ok [opc.mem, byteLo dm, byteHi dm]
        | none =>
          .error ("Invalid operand for ".toList ++ op ++ ": ".toList ++ dest)
  else if op = "INT".toList then
    match jsArg (args.get? 0) with
    | .error e => .error e
    | .ok a =>
      -- `parseNumber` may be NaN; the only use of the byte is a masked
      -- store into the image, where NaN stores 0
      .ok [0xCD, (parseNumber a).getD 0]
  else if op = "JMP".toList then
    match jsArg (args.get? 0) with
    | .error e => .error e
    | .ok a =>
      match resolveValue a labels currentOffset allowUnresolved with
      | .error e => .error e
      | .ok target =>
        let disp := target - (currentOffset + 3)
        .ok [0xE9, byteLo disp, byteHi disp]
  else if JUMPS.contains op then
    match jsArg (args.get? 0) with
    | .error e => .error e
    | .ok a =>
      match resolveValue a labels currentOffset allowUnresolved with
      | .error e => .error e
      | .ok target =>
        let disp := target - (currentOffset + 2)
        .ok [((jumpOpcode op : Nat) : Int), byteLo disp]
  else if op = "LOOP".toList then
    match jsArg (args.get? 0) with
    | .error e => .error e
    | .ok a =>
      match resolveValue a labels currentOffset allowUnresolved with
      | .error e => .error e
      | .ok target =>
        let disp := target - (currentOffset + 2)
        .ok [0xE2, byteLo disp]
  else .error (unknownMsg op args)

/-! ### Line parsing and the two passes -/

structure ParsedLine where
  label : Option Str
  instruction : Option Str
  directive : Option Str
  operands : List Str
deriving DecidableEq, Repr

/-- Model of `parseLine`: strip a `;` comment, detect an optional label (either
`NAME:` or the bare-label `NAME DB/DW/EQU …` heuristic), split mnemonic
from operands, and apply the special `DB`-with-quote operand handling. -/
def parseLine (line : Str) : Option ParsedLine :=
  let clean := jsTrim ((splitOnChar ';' line).headD [])
  if clean = [] then none else
  let labelRest : Option Str × Str :=
    if clean.contains ':' then
      let parts := splitOnChar ':' clean
      let p1 := (parts.get? 1).getD []
      (some (jsTrim (parts.headD [])), if p1 = [] then [] else jsTrim p1)
    else
      let spaceIdx := jsIndexOf clean ' '
      if spaceIdx ≠ -1 then
        let first := jsTrim (jsSubstring clean 0 spaceIdx)
        let remainder := jsTrim (jsSubstring clean (spaceIdx + 1) (clean.length : Int))
        let possibleDirective := jsUpper ((splitOnChar ' ' remainder).headD [])
        if possibleDirective = "DB".toList ∨ possibleDirective = "DW".toList ∨
            possibleDirective = "EQU".toList then
          (some first, remainder)
        else (none, clean)
      else (none, clean)
  let label := labelRest.1
  let rest := labelRest.2
  if rest = [] then some ⟨label, none, none, []⟩ else
  let spaceIdx := jsIndexOf rest ' '
  let op := if spaceIdx = -1 then rest else jsSubstring rest 0 spaceIdx
  let argsStr := if spaceIdx = -1 then ([] : Str)
                 else jsSubstring rest (spaceIdx + 1) (rest.length : Int)
  let operands : List Str :=
    if jsUpper op = "DB".toList && (argsStr.contains quoteS || argsStr.contains '"') then
      if argsStr.contains ',' then
        if jsStartsWithS (jsTrim argsStr) [quoteS] || jsStartsWithS (jsTrim argsStr) ['"'] then
          [jsTrim argsStr]
        else (splitOnChar ',' argsStr).map jsTrim
      else [jsTrim argsStr]
    else if argsStr = [] then [] else (splitOnChar ',' argsStr).map jsTrim
  let isDirective := jsUpper op = "ORG".toList ∨ jsUpper op = "DB".toList ∨
    jsUpper op = "DW".toList ∨ jsUpper op = "EQU".toList
  some ⟨label,
        if isDirective then none else some op,
        if isDirective then some (jsUpper op) else none,
        operands⟩

/-- One line of pass 1: record a label at the current offset, then advance
the offset (encoded length; `2` on encoder failure; `DB`/`DW` payload
length; `ORG` reassignment). `DB`/`ORG` with no operand hit the property
access on `undefined` and propagate a `TypeError` out of `compile`. -/
def pass1Line (labels : Labels) (offset : Int) (line : Str) :
    Except Str (Labels × Int) :=
  match parseLine line with
  | none => .ok (labels, offset)
  | some parts =>
    let labels :=
      match parts.label with
      | some l => if l ≠ [] then (l, offset) :: labels else labels
      | none => labels
    match parts.instruction with
    | some instr =>
      match encodeInstruction instr parts.operands labels 0 true with
      | .ok bytes => .ok (labels, offset + bytes.length)
      | .error _ => .ok (labels, offset + 2)  -- dummy fallback
    | none =>
      if parts.directive = some "DB".toList then
        match parts.operands.get? 0 with
        | none => .error msgUndef
        | some args =>
          if jsStartsWithS args [quoteS] || jsStartsWithS args ['"'] then
            .ok (labels, offset + ((args.length : Int) - 2))
          else .ok (labels, offset + parts.operands.length)
      else if parts.directive = some "DW".toList then
        .ok (labels, offset + (parts.operands.length : Int) * 2)
      else if parts.directive = some "ORG".toList then
        match parts.operands.get? 0 with
        | none => .error msgUndef
        | some a =>
          match parseNumber a with
          | some v => .ok (labels, v)
          | none => .ok (labels, offset)
      else .ok (labels, offset)

def pass1 (labels : Labels) (offset : Int) : List Str → Except Str (Labels × Int)
  | [] => .ok (labels, offset)
  | l :: rest =>
    match pass1Line labels offset l with
    | .error e => .error e
    | .ok (lb, off) => pass1 lb off rest

structure Pass2State where
  offset : Int
  errors : List Str
  mc : Mem
  smap : List (Int × Nat)

/-- Emission `machineCode[offset++] = b` for a list of bytes (`writeMem` has the
`Uint8Array` guard-and-mask semantics). -/
def emitBytes (mc : Mem) (offset : Int) : List Int → Mem × Int
  | [] => (mc, offset)
  | b :: rest => emitBytes (writeMem mc offset b) (offset + 1) rest

/-- Emit the char codes of a (quote-stripped) `DB` string. -/
def dbChars (mc : Mem) (offset : Int) (cs : Str) : Mem × Int :=
  emitBytes mc offset (cs.map (fun c => (c.toNat : Int)))

/-- Emit one non-quoted-line `DB` operand: a quoted piece emits its chars,
anything else emits `parseNumber(o) & 0xFF` (NaN stores 0). -/
def dbOperand (acc : Mem × Int) (o : Str) : Mem × Int :=
  if jsStartsWithS o [quoteS] || jsStartsWithS o ['"'] then
    dbChars acc.1 acc.2 (jsSubstring o 1 ((o.length : Int) - 1))
  else
    (writeMem acc.1 acc.2 (((parseNumber o).getD 0) % 256), acc.2 + 1)

def lineErrPrefix (lineIndex : Nat) : Str :=
  "Line ".toList ++ Nat.toDigits 10 (lineIndex + 1) ++ ": ".toList

/-- One line of pass 2. Note that `DW` lines only record a sourcemap
entry: the source's pass 2 has no `DW` branch (only the comment
`// DW ...`), so no bytes are emitted and the offset does not advance. -/
def pass2Line (labels : Labels) (st : Pass2State) (lineIndex : Nat) (line : Str) :
    Except Str Pass2State :=
  match parseLine line with
  | none => .ok st
  | some parts =>
    let st :=
      if parts.instruction.isSome ∨ parts.directive = some "DB".toList ∨
          parts.directive = some "DW".toList then
        { st with smap := (st.offset, lineIndex) :: st.smap }
      else st
    if parts.directive = some "ORG".toList then
      match parts.operands.get? 0 with
      | none => .error msgUndef
      | some a =>
        match parseNumber a with
        | some v => .ok { st with offset := v }
        | none => .ok st
    else if parts.directive = some "DB".toList then
      match parts.operands.get? 0 with
      | none => .error msgUndef
      | some raw =>
        if jsStartsWithS raw [quoteS] || jsStartsWithS raw ['"'] then
          let r := dbChars st.mc st.offset (jsSubstring raw 1 ((raw.length : Int) - 1))
          .ok { st with mc := r.1, offset := r.2 }
        else
          let r := parts.operands.foldl dbOperand (st.mc, st.offset)
          .ok { st with mc := r.1, offset := r.2 }
    else
      match parts.instruction with
      | some instr =>
        match encodeInstruction instr parts.operands labels st.offset false with
        | .ok bytes =>
          let r := emitBytes st.mc st.offset bytes
          .ok { st with mc := r.1, offset := r.2 }
        | .error e =>
          .ok { st with errors := st.errors ++ [lineErrPrefix lineIndex ++ e] }
      | none => .ok st

def pass2 (labels : Labels) (st : Pass2State) (i : Nat) : List Str → Except Str Pass2State
  | [] => .ok st
  | l :: rest =>
    match pass2Line labels st i l with
    | .error e => .error e
    | .ok st' => pass2 labels st' (i + 1) rest

structure CompileResult where
  machineCode : Mem
  startAddress : Int
  errors : List Str
  sourceMap : List (Int × Nat)

/-- Model of `compile`: split into lines, run pass 1 (symbol table), reset the
offset to `0x100` and run pass 2 (emission + diagnostics). -/
def compile (source : Str) : Except Str CompileResult :=
  let lines := splitOnChar '\n' source
  match pass1 [] 256 lines with
  | .error e => .error e
  | .ok (labels, _) =>
    match pass2 labels ⟨256, [], fun _ => 0, []⟩ 0 lines with
    | .error e => .error e
    | .ok st => .ok ⟨st.mc, 256, st.errors, st.smap⟩

/-! ## Concrete-state builders used by witnesses and counterexamples -/

def memOf (bytes : List (Nat × Nat)) : Mem := fun a => (bytes.lookup a).getD 0

def mkState (mem : Mem) (regs : Registers) (fl : Flags) : CPUState :=
  { memory := mem, registers := regs, flags := fl, status := .idle,
    error := none, logs := [] }

/-! ## C5: register writes are width-truncated and preserve the sibling half -/

/-- The claimed behaviour of a register write: reading back id `r` yields
the written value masked to `r`'s width, and for 8-bit halves the other
half of the parent 16-bit register is untouched. -/
def regWriteBehavior (regs : Registers) (id : Nat) (v : Int) : Prop :=
  getReg (setReg regs id v) id = v % (if id < 8 then 256 else 65536) ∧
  (id < 8 →
    getReg (setReg regs id v) (if id < 4 then id + 4 else id - 4) =
      getReg regs (if id < 4 then id + 4 else id - 4))

/-- C5: for every register id `r` in 0..15 and every value `v`, after a
register write of `v` to `r` the stored value equals `v` masked to `r`'s
width (`& 0xFF` for ids below 8, `& 0xFFFF` for ids 8..15), and when `r`
is an 8-bit half the other half of the parent 16-bit register is
unchanged. -/
theorem claim_C5 (regs : Registers) (id : Nat) (v : Int) (h : id < 16) :
    regWriteBehavior regs id v := by
  unfold regWriteBehavior
  interval_cases id <;>
    refine ⟨?_, ?_⟩ <;>
    (try intro h8) <;>
    norm_num [getReg, setReg, getRegisterRef, regGet, regSet, jsShr8, jsToInt32] <;>
    omega

theorem claim_C5_witness : (3 : Nat) < 16 ∧ regWriteBehavior INITIAL_REGISTERS 3 999 :=
  ⟨by decide, claim_C5 INITIAL_REGISTERS 3 999 (by decide)⟩

/-! ## C8: LOOP semantics -/

/-- The claimed behaviour of `LOOP` at a state `s`: `CX` becomes
`(CX - 1) & 0xFFFF`, and the sign-extended 8-bit displacement is added to
`IP` (mod 0x10000) exactly when the decremented `CX` is nonzero; in
particular `CX = 1` decrements to `0` (no jump) and `CX = 0` decrements
to `0xFFFF` (jump taken). -/
def loopBehavior (s : CPUState) : Prop :=
  executeInstruction s = .ok ⟨{ s with registers := { s.registers with
      CX := (s.registers.CX - 1) % 65536,
      IP := if (s.registers.CX - 1) % 65536 ≠ 0
            then (s.registers.IP + 2 + sext8 (read8 s.memory (s.registers.IP + 1))) % 65536
            else s.registers.IP + 2 } }, none, false⟩ ∧
  (s.registers.CX = 1 → (s.registers.CX - 1) % 65536 = 0) ∧
  (s.registers.CX = 0 → (s.registers.CX - 1) % 65536 = 65535)

/-- C8: for every state whose instruction at `IP` is `LOOP` (opcode
`0xE2`, displacement byte in memory), executing it sets
`CX := (CX - 1) & 0xFFFF` and adds the sign-extended displacement to `IP`
exactly when the decremented `CX` is nonzero. -/
theorem claim_C8 (s : CPUState)
    (h0 : 0 ≤ s.registers.IP) (h1 : s.registers.IP + 2 ≤ 65536)
    (hop : read8 s.memory s.registers.IP = 0xE2) :
    loopBehavior s := by
  have hni : ¬ (65536 ≤ s.registers.IP) := by omega
  refine ⟨?_, ?_, ?_⟩
  · simp only [executeInstruction, hop, if_neg hni, Int.reduceToNat]
    norm_num
    ring_nf
  · intro hcx; rw [hcx]; decide
  · intro hcx; rw [hcx]; decide

def c8state : CPUState :=
  mkState (memOf [(256, 0xE2), (257, 0xFE)]) { INITIAL_REGISTERS with CX := 0 }
    INITIAL_FLAGS

theorem claim_C8_witness :
    read8 c8state.memory c8state.registers.IP = 0xE2 ∧ loopBehavior c8state :=
  ⟨by decide, claim_C8 c8state (by decide) (by decide) (by decide)⟩

/-! ## C10: unrecognized opcodes execute as a 1-byte NOP -/

/-- The opcode bytes that have a `case` in the stepper's `switch`
(`0x90` appears once: `NOP` shadows `ADD_MEM_REG`). -/
def recognizedOpcodes : List Nat :=
  [0x90, 0xF4, 0x10, 0x11, 0x8A, 0x88, 0x8B, 0x89, 0xC6, 0xC7,
   0x24, 0x25, 0x91, 0x92, 0x93, 0x34, 0x35, 0x94, 0x96,
   0x3C, 0x3D, 0x3E, 0x42, 0x3F, 0x43, 0xA4, 0xA5,
   0x26, 0x27, 0x0C, 0x0D, 0x36, 0x37,
   0x20, 0x21, 0x30, 0x31, 0x38, 0x39, 0x40, 0x41,
   0xF6, 0xF7, 0xF8, 0x22, 0x23, 0x0A, 0x0B, 0x32, 0x33,
   0xE9, 0x74, 0x75, 0x7C, 0x7E, 0x7F, 0x7D, 0x72, 0x76, 0x77, 0x73,
   0xE2, 0xCD]

/-- C10: for every state whose byte at `IP` is not a recognized opcode
(e.g. `0x00`), `step` returns normally with `halted = false`, `IP`
incremented by exactly 1, and every other register, every flag, all of
memory, and the `status` and `error` fields unchanged (the result state is
the input state with only `IP` replaced). -/
theorem claim_C10 (s : CPUState)
    (h0 : 0 ≤ s.registers.IP) (h1 : s.registers.IP < 65536)
    (hop : (read8 s.memory s.registers.IP).toNat ∉ recognizedOpcodes) :
    executeInstruction s =
      .ok ⟨{ s with registers := { s.registers with IP := s.registers.IP + 1 } },
           none, false⟩ := by
  have hni : ¬ (65536 ≤ s.registers.IP) := by omega
  simp only [recognizedOpcodes, List.mem_cons, List.not_mem_nil, or_false, not_or] at hop
  simp [executeInstruction, if_neg hni, hop]

def c10state : CPUState := mkState (memOf []) INITIAL_REGISTERS INITIAL_FLAGS

theorem claim_C10_witness :
    ((read8 c10state.memory c10state.registers.IP).toNat ∉ recognizedOpcodes) ∧
    executeInstruction c10state =
      .ok ⟨{ c10state with registers :=
               { c10state.registers with IP := c10state.registers.IP + 1 } },
           none, false⟩ :=
  ⟨by decide, claim_C10 c10state (by decide) (by decide) (by decide)⟩

/-! ## C9: conditional jumps -/

def jccOps : List Nat := [0x74, 0x75, 0x7C, 0x7E, 0x7F, 0x7D, 0x72, 0x76, 0x77, 0x73]

/-- The claimed behaviour of a conditional jump with opcode `op` at a
state `s`: `IP` gets the sign-extended 8-bit displacement added (mod
0x10000) exactly when the condition holds, and otherwise just advances
past the 2-byte instruction; nothing else changes. -/
def jccBehavior (s : CPUState) (op : Nat) : Prop :=
  executeInstruction s = .ok ⟨{ s with registers := { s.registers with
      IP := if jccCond op s.flags
            then (s.registers.IP + 2 + sext8 (read8 s.memory (s.registers.IP + 1))) % 65536
            else s.registers.IP + 2 } }, none, false⟩

/-- C9: every conditional-jump opcode evaluates exactly the documented
condition over `ZF, SF, OF, CF` and adds the sign-extended 8-bit
displacement to `IP` exactly when it holds; otherwise `IP` only advances
past the 2-byte instruction. The second conjunct pins each opcode's
condition to the table (`JE: ZF`, `JNE: ¬ZF`, `JL: SF ≠ OF`,
`JLE: ZF ∨ (SF ≠ OF)`, `JG: ¬ZF ∧ (SF = OF)`, `JGE: SF = OF`, `JB: CF`,
`JBE: CF ∨ ZF`, `JA: ¬CF ∧ ¬ZF`, `JAE: ¬CF`). -/
theorem claim_C9 :
    (∀ (s : CPUState) (op : Nat), op ∈ jccOps →
      0 ≤ s.registers.IP → s.registers.IP + 2 ≤ 65536 →
      read8 s.memory s.registers.IP = (op : Int) →
      jccBehavior s op) ∧
    (∀ f : Flags,
      jccCond 0x74 f = f.ZF ∧ jccCond 0x75 f = !f.ZF ∧
      jccCond 0x7C f = (f.SF != f.OF) ∧ jccCond 0x7E f = (f.ZF || (f.SF != f.OF)) ∧
      jccCond 0x7F f = (!f.ZF && (f.SF == f.OF)) ∧ jccCond 0x7D f = (f.SF == f.OF) ∧
      jccCond 0x72 f = f.CF ∧ jccCond 0x76 f = (f.CF || f.ZF) ∧
      jccCond 0x77 f = (!f.CF && !f.ZF) ∧ jccCond 0x73 f = !f.CF) := by
  constructor
  · intro s op hmem h0 h1 hop
    have hni : ¬ (65536 ≤ s.registers.IP) := by omega
    unfold jccBehavior
    fin_cases hmem <;>
      · simp only [Nat.cast_ofNat, Int.reduceToNat] at hop ⊢
        simp only [executeInstruction, hop, if_neg hni, Int.reduceToNat]
        norm_num [jccCond]
        ring_nf
  · intro f
    refine ⟨?_, ?_, ?_, ?_, ?_, ?_, ?_, ?_, ?_, ?_⟩ <;> norm_num [jccCond]

def c9state : CPUState :=
  mkState (memOf [(256, 0x74), (257, 0x10)]) INITIAL_REGISTERS
    { INITIAL_FLAGS with ZF := true }

theorem claim_C9_witness :
    (0x74 ∈ jccOps ∧ read8 c9state.memory c9state.registers.IP = ((0x74 : Nat) : Int)) ∧
    jccBehavior c9state 0x74 :=
  ⟨⟨by decide, by decide⟩,
   claim_C9.1 c9state 0x74 (by decide) (by decide) (by decide) (by decide)⟩

/-! ## C6: INT 21h, AH = 09h -/

/-- The claimed `INT 21h / AH=09h` behaviour at a state `s`: the step
succeeds (no fault), `IP` advances past the two instruction bytes, and
the output is the string collected from address `DX`. -/
def int21StringBehavior (s : CPUState) : Prop :=
  executeInstruction s =
    .ok ⟨{ s with registers := { s.registers with IP := s.registers.IP + 2 } },
         some (readString s.memory s.registers.DX), false⟩

/-- C6 (amended): executing `INT 0x21` with `AH = 0x09` emits the bytes
starting at address `DX` up to but excluding the first byte equal to
`0x24` (`$`); when no `0x24` byte occurs at any address from `DX` through
`0xFFFF`, reading stops at the end of memory and **no fault occurs** (the
step still returns normally). The last two conjuncts characterize the
collected string: collection ends at the end of memory, and otherwise
takes the byte at `a` unless it is `0x24`. -/
theorem claim_C6 :
    (∀ s : CPUState, 0 ≤ s.registers.IP → s.registers.IP + 2 ≤ 65536 →
      read8 s.memory s.registers.IP = 0xCD →
      read8 s.memory (s.registers.IP + 1) = 0x21 →
      (jsShr8 s.registers.AX) % 256 = 9 →
      int21StringBehavior s) ∧
    (∀ (m : Mem) (a : Int), 65536 ≤ a → readString m a = []) ∧
    (∀ (m : Mem) (a : Int), a < 65536 →
      readString m a =
        if read8 m a = 36 then []
        else Char.ofNat (read8 m a).toNat :: readString m (a + 1)) := by
  refine ⟨?_, ?_, ?_⟩
  · intro s h0 h1 hop hno hah
    have hni : ¬ (65536 ≤ s.registers.IP) := by omega
    unfold int21StringBehavior
    simp only [executeInstruction, hop, hno, if_neg hni, Int.reduceToNat]
    norm_num [hah]
    ring_nf
  · intro m a ha
    have h : (65536 - a).toNat = 0 := by omega
    rw [readString, h]
    rfl
  · intro m a ha
    have h : (65536 - a).toNat = (65536 - (a + 1)).toNat + 1 := by omega
    rw [readString, h]
    simp [readStringAux, readString, if_pos ha]

def c6state : CPUState :=
  mkState (memOf [(256, 0xCD), (257, 0x21), (65535, 65)])
    { INITIAL_REGISTERS with AX := 0x0900, DX := 0xFFFF } INITIAL_FLAGS

/-- The claim as stated is false: at `c6state` there is no `0x24` byte
from `DX = 0xFFFF` through `0xFFFF`, yet the step does not fault — it
returns normally with the output `"A"` (the bytes from `DX` to the end of
memory). -/
theorem claim_C6_counterexample :
    executeInstruction c6state =
      .ok ⟨{ c6state with registers := { c6state.registers with IP := 258 } },
           some ['A'], false⟩ := by
  rfl

theorem claim_C6_witness :
    ((jsShr8 c6state.registers.AX) % 256 = 9 ∧ (65536 : Int) ≤ 65536 ∧ (0 : Int) < 65536) ∧
    (int21StringBehavior c6state ∧ readString (memOf []) 65536 = [] ∧
      readString (memOf []) 0 =
        if read8 (memOf []) 0 = 36 then []
        else Char.ofNat (read8 (memOf []) 0).toNat :: readString (memOf []) 1) :=
  ⟨⟨by decide, by decide, by decide⟩,
   claim_C6.1 c6state (by decide) (by decide) (by decide) (by decide) (by decide),
   claim_C6.2.1 (memOf []) 65536 (by decide),
   claim_C6.2.2 (memOf []) 0 (by decide)⟩

/-! ## C1: DIV faults -/

/-- The state the stepper returns when a division faults: `IP` is past
the 2-byte instruction, `error` holds the precise cause, and `status` is
`error` — but no exception is raised (the result is `Except.ok`). -/
def divFaultState (s : CPUState) (msg : Str) : CPUState :=
  { s with registers := { s.registers with IP := s.registers.IP + 2 },
           error := some msg, status := .error }

/-- C1 (amended): for every state whose instruction at `IP` is `DIV` with
a zero divisor, and for every state whose quotient exceeds the
destination width (`> 0xFF` for an 8-bit divisor, `> 0xFFFF` for a 16-bit
divisor), `step` does **not** throw: it sets the state's `error` field to
the precise cause (`"Divide by Zero"` / `"Divide Overflow"`) and
`status` to `error`, and returns normally. -/
theorem claim_C1 (s : CPUState)
    (h0 : 0 ≤ s.registers.IP) (h1 : s.registers.IP + 2 ≤ 65536)
    (hop : read8 s.memory s.registers.IP = 0xF7)
    (hsrc : (read8 s.memory (s.registers.IP + 1)).toNat < 16) :
    (getReg s.registers (read8 s.memory (s.registers.IP + 1)).toNat = 0 →
      executeInstruction s = .ok ⟨divFaultState s msgDivZero, none, false⟩) ∧
    ((read8 s.memory (s.registers.IP + 1)).toNat < 8 →
     getReg s.registers (read8 s.memory (s.registers.IP + 1)).toNat ≠ 0 →
     255 < s.registers.AX.fdiv
             (getReg s.registers (read8 s.memory (s.registers.IP + 1)).toNat) →
      executeInstruction s = .ok ⟨divFaultState s msgDivOvf, none, false⟩) ∧
    (8 ≤ (read8 s.memory (s.registers.IP + 1)).toNat →
     getReg s.registers (read8 s.memory (s.registers.IP + 1)).toNat ≠ 0 →
     65535 < (jsOr (jsShl16 s.registers.DX) s.registers.AX).fdiv
               (getReg s.registers (read8 s.memory (s.registers.IP + 1)).toNat) →
      executeInstruction s = .ok ⟨divFaultState s msgDivOvf, none, false⟩) := by
  have hni : ¬ (65536 ≤ s.registers.IP) := by omega
  refine ⟨?_, ?_, ?_⟩
  · intro hz
    simp only [executeInstruction, hop, if_neg hni, Int.reduceToNat]
    norm_num [hz, divFaultState]
    ring_nf
  · intro h8 hnz hq
    simp only [executeInstruction, hop, if_neg hni, Int.reduceToNat]
    norm_num [if_neg hnz, if_pos h8, if_pos hq, divFaultState]
    ring_nf
  · intro h8 hnz hq
    have h8' : ¬ ((read8 s.memory (s.registers.IP + 1)).toNat < 8) := by omega
    simp only [executeInstruction, hop, if_neg hni, Int.reduceToNat]
    norm_num [if_neg hnz, if_neg h8', if_pos hq, divFaultState]
    ring_nf

def c1state : CPUState :=
  mkState (memOf [(256, 0xF7), (257, 3)]) INITIAL_REGISTERS INITIAL_FLAGS

def exceptIsOk : Except Str ExecutionResult → Bool
  | .ok _ => true
  | .error _ => false

def resultError : Except Str ExecutionResult → Option (Option Str)
  | .ok r => some r.newState.error
  | .error _ => none

/-- The claim as stated is false: at `c1state` (a `DIV BL` with
`BL = 0`), `step` does not throw a fault — it returns `Except.ok`
(while recording the cause in the state's `error` field). -/
theorem claim_C1_counterexample :
    exceptIsOk (executeInstruction c1state) = true ∧
    resultError (executeInstruction c1state) = some (some msgDivZero) := by
  decide

theorem claim_C1_witness :
    read8 c1state.memory c1state.registers.IP = 0xF7 ∧
    executeInstruction c1state = .ok ⟨divFaultState c1state msgDivZero, none, false⟩ :=
  ⟨by decide,
   (claim_C1 c1state (by decide) (by decide) (by decide) (by decide)).1 (by decide)⟩

/-! ## C7: JMP round trip -/

/-- The two displacement bytes of an encoded `JMP` reassemble (little
endian) to the displacement mod 2^16. -/
lemma jmpBytesSum (d : Int) (h1 : -2147483648 ≤ d) (h2 : d < 2147483648) :
    byteLo d + 256 * byteHi d = d % 65536 := by
  unfold byteLo byteHi jsShr8 jsToInt32
  omega

/-- C7: for every label `L` bound to an address `A` in `[0, 65536)` and
every `JMP L` assembled at offset `O`, the assembler encodes opcode
`0xE9` followed by the 16-bit little-endian displacement `A - (O + 3)`,
and executing those three bytes at `IP = O` sets `IP` to exactly `A`
(sign-extending the displacement and wrapping mod 0x10000). -/
theorem claim_C7 (labels : Labels) (L : Str) (A O : Int)
    (hbr : ¬(jsIndexOf L '[' ≠ -1 ∧ jsIndexOf L ']' ≠ -1))
    (hL : labels.lookup L = some A)
    (hA : 0 ≤ A ∧ A < 65536)
    (hO : 0 ≤ O ∧ O + 3 ≤ 65536) :
    encodeInstruction "JMP".toList [L] labels O false =
      .ok [0xE9, byteLo (A - (O + 3)), byteHi (A - (O + 3))] ∧
    byteLo (A - (O + 3)) + 256 * byteHi (A - (O + 3)) = (A - (O + 3)) % 65536 ∧
    (∀ s : CPUState,
      s.registers.IP = O →
      read8 s.memory O = 0xE9 →
      read8 s.memory (O + 1) = byteLo (A - (O + 3)) →
      read8 s.memory (O + 2) = byteHi (A - (O + 3)) →
      executeInstruction s =
        .ok ⟨{ s with registers := { s.registers with IP := A } }, none, false⟩) := by
  refine ⟨?_, jmpBytesSum _ (by omega) (by omega), ?_⟩
  · have hup : jsUpper ("JMP".toList) = "JMP".toList := by decide
    simp only [encodeInstruction, hup]
    simp [jsArg, resolveValue, if_neg hbr, hL]
  · intro s hip hop hb1 hb2
    subst hip
    have hni : ¬ (65536 ≤ s.registers.IP) := by omega
    simp only [executeInstruction, hop, if_neg hni, Int.reduceToNat]
    norm_num [read16, hb1, hb2]
    rw [show s.registers.IP + 1 + 1 = s.registers.IP + 2 from by ring, hb2,
      jmpBytesSum _ (by omega) (by omega)]
    unfold sext16
    split_ifs <;> omega

def c7labels : Labels := [("tgt".toList, 300)]

theorem claim_C7_witness :
    (c7labels.lookup "tgt".toList = some 300 ∧ (0 : Int) ≤ 300 ∧ (300 : Int) < 65536) ∧
    encodeInstruction "JMP".toList ["tgt".toList] c7labels 500 false =
      .ok [0xE9, byteLo (300 - (500 + 3)), byteHi (300 - (500 + 3))] :=
  ⟨⟨by decide, by decide, by decide⟩,
   (claim_C7 c7labels "tgt".toList 300 500 (by decide) (by decide)
     ⟨by decide, by decide⟩ ⟨by decide, by decide⟩).1⟩

/-! ## C4: `DW` emission (pass 2 emits nothing) -/

/-- The byte at address `a` of the image `compile src` produces
(`none` when `compile` throws). -/
def compiledByte (src : Str) (a : Nat) : Option Nat :=
  match compile src with
  | .ok r => some (r.machineCode a)
  | .error _ => none

def zeroMem : Mem := fun _ => 0

/-- C4 is a code bug: the source's pass 2 contains only the placeholder
comment `// DW ...` where the emission should be. Compiling
`DW 52\nHLT` therefore puts the `HLT` byte `0xF4` at `0x100` — the very
offset where the claim requires the little-endian bytes `52, 0` — and
leaves `0x101`, `0x102` zero. The last two conjuncts isolate the
divergence between the passes on the single line `DW 52`: pass 1
advances its offset from `0x100` to `0x102` (by `2n = 2`), while pass 2
leaves the offset at `0x100`, emits nothing into the image, and only
records a sourcemap entry. -/
theorem claim_C4 :
    compiledByte "DW 52\nHLT".toList 256 = some 0xF4 ∧
    compiledByte "DW 52\nHLT".toList 257 = some 0 ∧
    compiledByte "DW 52\nHLT".toList 258 = some 0 ∧
    pass1Line [] 256 "DW 52".toList = .ok ([], 258) ∧
    pass2Line [] ⟨256, [], zeroMem, []⟩ 0 "DW 52".toList =
      .ok ⟨256, [], zeroMem, [(256, 0)]⟩ := by
  refine ⟨by decide, by decide, by decide, by rfl, ?_⟩
  rfl

/-! ## C3: `compile` error discipline -/

/-- A line is directive-complete when, if it parses as a `DB` or `ORG`
directive, it has at least one operand. A violating line makes the
source's `compile` access a property of `undefined` (uncaught
`TypeError`). -/
def goodLineB (l : Str) : Bool :=
  match parseLine l with
  | some p =>
    if p.directive = some "DB".toList ∨ p.directive = some "ORG".toList then
      !p.operands.isEmpty
    else true
  | none => true

/-- The image invariant: a 64 KiB byte image (zero outside `[0, 65536)`,
every cell a byte). -/
def memInv (m : Mem) : Prop := ∀ a, (65536 ≤ a → m a = 0) ∧ m a < 256

/-- Every diagnostic is `"Line N: …"` with 1-based `N` at most `b`. -/
def errsInv (errs : List Str) (b : Nat) : Prop :=
  ∀ e ∈ errs, ∃ n msg, n < b ∧ e = lineErrPrefix n ++ msg

lemma memInv_zero : memInv zeroMem := by
  intro a
  refine ⟨fun _ => rfl, ?_⟩
  show (0 : Nat) < 256
  decide

lemma memInv_write {m : Mem} (hm : memInv m) (a v : Int) : memInv (writeMem m a v) := by
  intro x
  unfold writeMem
  split_ifs with h
  · dsimp only
    split_ifs with hx
    · constructor
      · intro hge; omega
      · omega
    · exact hm x
  · exact hm x

lemma memInv_emitBytes : ∀ (bs : List Int) (m : Mem) (off : Int),
    memInv m → memInv (emitBytes m off bs).1
  | [], _, _, hm => hm
  | b :: rest, m, off, hm =>
    memInv_emitBytes rest (writeMem m off b) (off + 1) (memInv_write hm off b)

lemma memInv_dbChars {m : Mem} (hm : memInv m) (off : Int) (cs : Str) :
    memInv (dbChars m off cs).1 :=
  memInv_emitBytes _ _ _ hm

lemma memInv_dbFold : ∀ (ops : List Str) (acc : Mem × Int),
    memInv acc.1 → memInv ((ops.foldl dbOperand acc).1)
  | [], _, hm => hm
  | o :: rest, acc, hm =>
    memInv_dbFold rest (dbOperand acc o) (by
      unfold dbOperand
      split_ifs with h
      · exact memInv_dbChars hm _ _
      · exact memInv_write hm _ _)

lemma pass1Line_ok (labels : Labels) (offset : Int) (l : Str)
    (hg : goodLineB l = true) : ∃ r, pass1Line labels offset l = .ok r := by
  unfold goodLineB at hg
  cases hp : parseLine l with
  | none => exact ⟨(labels, offset), by simp [pass1Line, hp]⟩
  | some parts =>
    rw [hp] at hg
    dsimp only at hg
    simp only [pass1Line, hp]
    repeat' split
    all_goals first
      | exact ⟨_, rfl⟩
      | (exfalso; simp_all [List.get?_eq_none])

lemma pass1_ok : ∀ (lines : List Str) (labels : Labels) (offset : Int),
    (∀ l ∈ lines, goodLineB l = true) → ∃ r, pass1 labels offset lines = .ok r
  | [], labels, offset, _ => ⟨(labels, offset), rfl⟩
  | l :: rest, labels, offset, h => by
    obtain ⟨⟨lb, off⟩, h1⟩ := pass1Line_ok labels offset l (h l (by simp))
    obtain ⟨r, h2⟩ := pass1_ok rest lb off (fun x hx => h x (by simp [hx]))
    exact ⟨r, by simp [pass1, h1, h2]⟩

lemma pass2Line_ok (labels : Labels) (st : Pass2State) (i : Nat) (l : Str)
    (hg : goodLineB l = true) (hm : memInv st.mc) :
    ∃ st', pass2Line labels st i l = .ok st' ∧ memInv st'.mc ∧
      (∀ e ∈ st'.errors, e ∈ st.errors ∨ ∃ msg, e = lineErrPrefix i ++ msg) := by
  unfold goodLineB at hg
  cases hp : parseLine l with
  | none => exact ⟨st, by simp [pass2Line, hp], hm, fun e he => .inl he⟩
  | some parts =>
    rw [hp] at hg
    dsimp only at hg
    simp only [pass2Line, hp]
    repeat' split
    all_goals first
      | (exfalso; simp_all [List.get?_eq_none]; done)
      | (refine ⟨_, rfl, ?_, ?_⟩ <;>
          (try simp only [apply_ite Pass2State.mc, apply_ite Pass2State.errors, ite_self]) <;>
          first
            | exact hm
            | exact memInv_emitBytes _ _ _ hm
            | exact memInv_dbChars hm _ _
            | exact memInv_dbFold _ _ hm
            | (intro e he; exact .inl he)
            | (intro e he
               rcases List.mem_append.mp he with h | h
               · exact .inl h
               · exact .inr ⟨_, by simpa using h⟩))

lemma pass2_ok : ∀ (lines : List Str) (labels : Labels) (st : Pass2State) (i : Nat),
    (∀ l ∈ lines, goodLineB l = true) → memInv st.mc → errsInv st.errors i →
    ∃ st', pass2 labels st i lines = .ok st' ∧ memInv st'.mc ∧
      errsInv st'.errors (i + lines.length)
  | [], labels, st, i, _, hm, he => ⟨st, rfl, hm, by simpa using he⟩
  | l :: rest, labels, st, i, h, hm, he => by
    obtain ⟨st1, h1, hm1, he1⟩ := pass2Line_ok labels st i l (h l (by simp)) hm
    have he1' : errsInv st1.errors (i + 1) := by
      intro e hein
      rcases he1 e hein with hin | ⟨msg, hmsg⟩
      · obtain ⟨n, msg, hn, hmsg⟩ := he e hin
        exact ⟨n, msg, by omega, hmsg⟩
      · exact ⟨i, msg, by omega, hmsg⟩
    obtain ⟨st', h2, hm2, he2⟩ :=
      pass2_ok rest labels st1 (i + 1) (fun x hx => h x (by simp [hx])) hm1 he1'
    exact ⟨st', by simp [pass2, h1, h2], hm2, by
      intro e hein
      obtain ⟨n, msg, hn, hmsg⟩ := he2 e hein
      exact ⟨n, msg, by simp at hn ⊢; omega, hmsg⟩⟩

/-- The error component of an encoder outcome. -/
def errOf : Except Str (List Int) → Option Str
  | .error e => some e
  | .ok _ => none

lemma errOf_eq_some {x : Except Str (List Int)} {e : Str} (h : errOf x = some e) :
    x = .error e := by
  cases x <;> simp_all [errOf]

/-- The resolver ignores its `currentOffset` argument. -/
lemma resolveValue_co (s : Str) (labels : Labels) (o : Int) (au : Bool) :
    resolveValue s labels o au = resolveValue s labels 0 au := rfl

/-- The indexed-operand parser uses `currentOffset` only as a pass-through to
`resolveValue`, which ignores it. -/
lemma parseIndexed_co (s : Str) (labels : Labels) (o : Int) (au : Bool) :
    parseIndexed s labels o au = parseIndexed s labels 0 au := by
  unfold parseIndexed
  simp only [resolveValue_co]

/-- The encoder's error outcome does not depend on `currentOffset`: the
offset only enters the displacement bytes of successful jump encodings. -/
lemma errOf_encode_co (op : Str) (args : List Str) (labels : Labels) (o : Int)
    (au : Bool) :
    errOf (encodeInstruction op args labels o au) =
      errOf (encodeInstruction op args labels 0 au) := by
  unfold encodeInstruction
  simp only [resolveValue_co, parseIndexed_co]
  by_cases h1 : jsUpper op = "NOP".toList
  · simp only [if_pos h1]
  simp only [if_neg h1]
  by_cases h2 : jsUpper op = "HLT".toList
  · simp only [if_pos h2]
  simp only [if_neg h2]
  by_cases h3 : jsUpper op = "RET".toList
  · simp only [if_pos h3]
  simp only [if_neg h3]
  by_cases h4 : jsUpper op = "MOV".toList
  · simp only [if_pos h4]
  simp only [if_neg h4]
  by_cases h5 : jsUpper op = "ADD".toList ∨ jsUpper op = "SUB".toList ∨ jsUpper op = "AND".toList ∨ jsUpper op = "OR".toList ∨ jsUpper op = "XOR".toList ∨ jsUpper op = "CMP".toList
  · simp only [if_pos h5]
  simp only [if_neg h5]
  by_cases h6 : jsUpper op = "INC".toList ∨ jsUpper op = "DEC".toList ∨ jsUpper op = "MUL".toList ∨ jsUpper op = "DIV".toList ∨ jsUpper op = "NOT".toList
  · simp only [if_pos h6]
  simp only [if_neg h6]
  by_cases h7 : jsUpper op = "INT".toList
  · simp only [if_pos h7]
  simp only [if_neg h7]
  by_cases h8 : jsUpper op = "JMP".toList
  · simp only [if_pos h8]
    repeat' split
    all_goals rfl
  simp only [if_neg h8]
  by_cases h9 : JUMPS.contains (jsUpper op) = true
  · simp only [if_pos h9]
    repeat' split
    all_goals rfl
  simp only [if_neg h9]
  by_cases h10 : jsUpper op = "LOOP".toList
  · simp only [if_pos h10]
    repeat' split
    all_goals rfl
  simp only [if_neg h10]

/-- A parsed line carrying an instruction carries no directive: `parseLine`
fills exactly one of the two fields. -/
lemma parseLine_instr_directive {l : Str} {parts : ParsedLine}
    (hp : parseLine l = some parts) (instr : Str)
    (hi : parts.instruction = some instr) : parts.directive = none := by
  unfold parseLine at hp
  lift_lets at hp
  extract_lets at hp
  repeat' split at hp
  all_goals first
    | exact Option.noConfusion hp
    | (obtain rfl := Option.some.inj hp
       first | rfl | exact Option.noConfusion hi)

/-- If the encoder rejects an instruction line (at any offset: the error is
offset-independent), pass 2 appends exactly the `"Line N: "`-prefixed message
for that line and continues. -/
lemma pass2Line_capture (labels : Labels) (st : Pass2State) (i : Nat) (l : Str)
    (parts : ParsedLine) (instr : Str) (e : Str)
    (hp : parseLine l = some parts) (hi : parts.instruction = some instr)
    (he : encodeInstruction instr parts.operands labels 0 false = .error e) :
    ∃ st', pass2Line labels st i l = .ok st' ∧
      st'.errors = st.errors ++ [lineErrPrefix i ++ e] := by
  have hd := parseLine_instr_directive hp instr hi
  have henc : encodeInstruction instr parts.operands labels st.offset false = .error e := by
    have hco := errOf_encode_co instr parts.operands labels st.offset false
    rw [he] at hco
    exact errOf_eq_some hco
  have hstep : pass2Line labels st i l =
      .ok { st with smap := (st.offset, i) :: st.smap, errors := st.errors ++ [lineErrPrefix i ++ e] } := by
    simp only [pass2Line, hp, hi, hd, henc]
    simp
    rw [henc]
  exact ⟨_, hstep, rfl⟩

/-- One pass-2 line never discards previously recorded diagnostics. -/
lemma pass2Line_errors_mono (labels : Labels) (st : Pass2State) (i : Nat) (l : Str)
    (st' : Pass2State) (h : pass2Line labels st i l = .ok st') :
    ∀ x ∈ st.errors, x ∈ st'.errors := by
  simp only [pass2Line] at h
  repeat' split at h
  all_goals first
    | exact Except.noConfusion h
    | (obtain rfl := Except.ok.inj h
       intro x hx
       first | exact hx | exact List.mem_append_left _ hx)

/-- Pass 2 never discards previously recorded diagnostics. -/
lemma pass2_errors_mono : ∀ (lines : List Str) (labels : Labels) (st : Pass2State)
    (i : Nat) (stF : Pass2State), pass2 labels st i lines = .ok stF →
    ∀ x ∈ st.errors, x ∈ stF.errors
  | [], _, st, _, stF, h, x, hx => by
    simp only [pass2] at h
    obtain rfl := Except.ok.inj h
    exact hx
  | l :: rest, labels, st, i, stF, h, x, hx => by
    simp only [pass2] at h
    cases hL : pass2Line labels st i l with
    | error e => simp only [hL] at h; exact Except.noConfusion h
    | ok st1 =>
      simp only [hL] at h
      exact pass2_errors_mono rest labels st1 (i + 1) stF h x
        (pass2Line_errors_mono labels st i l st1 hL x hx)

/-- Every encoding failure among the lines is captured in the diagnostics of
the final pass-2 state, under its own line index. -/
lemma pass2_capture : ∀ (lines : List Str) (labels : Labels) (st : Pass2State)
    (i n : Nat) (l : Str) (parts : ParsedLine) (instr e : Str) (stF : Pass2State),
    lines.get? n = some l → parseLine l = some parts →
    parts.instruction = some instr →
    encodeInstruction instr parts.operands labels 0 false = .error e →
    pass2 labels st i lines = .ok stF →
    lineErrPrefix (i + n) ++ e ∈ stF.errors
  | [], _, _, _, n, _, _, _, _, _, hget, _, _, _, _ => by simp at hget
  | l0 :: rest, labels, st, i, n, l, parts, instr, e, stF, hget, hp, hi, he, hrun => by
    cases n with
    | zero =>
      simp only [List.get?] at hget
      obtain rfl := Option.some.inj hget
      obtain ⟨st1, h1, herr⟩ := pass2Line_capture labels st i l0 parts instr e hp hi he
      simp only [pass2, h1] at hrun
      have hmem : lineErrPrefix i ++ e ∈ st1.errors := by rw [herr]; simp
      simpa using pass2_errors_mono rest labels st1 (i + 1) stF hrun _ hmem
    | succ m =>
      simp only [pass2] at hrun
      cases hL : pass2Line labels st i l0 with
      | error e0 => simp only [hL] at hrun; exact Except.noConfusion hrun
      | ok st1 =>
        simp only [hL] at hrun
        have := pass2_capture rest labels st1 (i + 1) m l parts instr e stF
          (by simpa using hget) hp hi he hrun
        have harith : i + 1 + m = i + (m + 1) := by omega
        rwa [harith] at this


/-- C3 (amended): for every source text in which each `DB`/`ORG` directive
line has at least one operand, `compile` returns normally; every entry of
the returned `errors` list carries a `"Line N: "` prefix whose 1-based
`N` is at most the number of source lines; every encoding failure is
captured under the failing line's own 1-based number (if line `n`,
0-based, parses to an instruction that the encoder rejects with message
`e` — at any offset, the encoder's error outcome being offset-independent
— then `"Line (n+1): " ++ e` is in the returned `errors`); and the
returned image is a full 64 KiB byte image (zero outside `[0, 65536)`)
even when `errors` is non-empty. (Without the operand proviso the claim
is false: see the counterexample, where `compile` throws.) -/
theorem claim_C3 (src : Str)
    (h : ∀ l ∈ splitOnChar '\n' src, goodLineB l = true) :
    ∃ r, compile src = .ok r ∧
      (∀ e ∈ r.errors, ∃ n msg, n < (splitOnChar '\n' src).length ∧
        e = lineErrPrefix n ++ msg) ∧
      (∃ lb, pass1 [] 256 (splitOnChar '\n' src) = .ok lb ∧
        ∀ n l parts instr e o, (splitOnChar '\n' src).get? n = some l →
          parseLine l = some parts → parts.instruction = some instr →
          encodeInstruction instr parts.operands lb.1 o false = .error e →
          lineErrPrefix n ++ e ∈ r.errors) ∧
      (∀ a, 65536 ≤ a → r.machineCode a = 0) ∧ (∀ a, r.machineCode a < 256) := by
  obtain ⟨⟨labels, off⟩, h1⟩ := pass1_ok (splitOnChar '\n' src) [] 256 h
  obtain ⟨st', h2, hm, he⟩ :=
    pass2_ok (splitOnChar '\n' src) labels ⟨256, [], fun _ => 0, []⟩ 0 h
      memInv_zero (by intro e hein; cases hein)
  refine ⟨⟨st'.mc, 256, st'.errors, st'.smap⟩, ?_, ?_, ?_, ?_, ?_⟩
  · simp [compile, h1, h2]
  · intro e hein
    obtain ⟨n, msg, hn, hmsg⟩ := he e hein
    exact ⟨n, msg, by simpa using hn, hmsg⟩
  · refine ⟨(labels, off), h1, ?_⟩
    intro n l parts instr e o hget hp hi henc
    have he0 : encodeInstruction instr parts.operands labels 0 false = .error e := by
      have hco := errOf_encode_co instr parts.operands labels o false
      rw [henc] at hco
      exact errOf_eq_some hco.symm
    have := pass2_capture (splitOnChar '\n' src) labels ⟨256, [], fun _ => 0, []⟩
      0 n l parts instr e st' hget hp hi he0 h2
    simpa using this
  · exact fun a ha => (hm a).1 ha
  · exact fun a => (hm a).2

/-- The claim as stated is false: on the one-line source `ORG` (an `ORG`
directive with no operand) the source's `compile` reads a property of
`undefined` and throws instead of returning. -/
theorem claim_C3_counterexample :
    compile "ORG".toList = .error msgUndef := by rfl

theorem claim_C3_witness :
    (∀ l ∈ splitOnChar '\n' "FOO BAR\nMOV AX, 5".toList, goodLineB l = true) ∧
    (∃ r, compile "FOO BAR\nMOV AX, 5".toList = .ok r ∧
      (∀ e ∈ r.errors, ∃ n msg,
        n < (splitOnChar '\n' "FOO BAR\nMOV AX, 5".toList).length ∧
        e = lineErrPrefix n ++ msg) ∧
      (∃ lb, pass1 [] 256 (splitOnChar '\n' "FOO BAR\nMOV AX, 5".toList) = .ok lb ∧
        ∀ n l parts instr e o,
          (splitOnChar '\n' "FOO BAR\nMOV AX, 5".toList).get? n = some l →
          parseLine l = some parts → parts.instruction = some instr →
          encodeInstruction instr parts.operands lb.1 o false = .error e →
          lineErrPrefix n ++ e ∈ r.errors) ∧
      (∀ a, 65536 ≤ a → r.machineCode a = 0) ∧ (∀ a, r.machineCode a < 256)) :=
  ⟨by decide, claim_C3 "FOO BAR\nMOV AX, 5".toList (by decide)⟩


/-! ## C2: flag updates of the arithmetic/logic instructions -/

/-- The flags of the successor state (errors propagated). -/
def stepFlags (s : CPUState) : Except Str Flags :=
  (executeInstruction s).map (fun r => r.newState.flags)

/-- Operand byte `k` bytes after the opcode's address. -/
def opByte (s : CPUState) (k : Int) : Int := read8 s.memory (s.registers.IP + k)

/-- Little-endian operand word `k` bytes after the opcode's address. -/
def opWord (s : CPUState) (k : Int) : Int := read16 s.memory (s.registers.IP + k)

/-- The register-id operand byte of the `[op][dest_id]…` encodings. -/
def destId (s : CPUState) : Nat := (opByte s 1).toNat

/-- High nibble of a packed `(dest << 4) | src` register byte. -/
def packedDest (s : CPUState) : Nat := (opByte s 1 / 16 % 16).toNat

/-- Low nibble of a packed register byte. -/
def packedSrc (s : CPUState) : Nat := (opByte s 1 % 16).toNat

lemma read8_bounds (m : Mem) (a : Int) : 0 ≤ read8 m a ∧ read8 m a < 256 := by
  unfold read8
  split_ifs with h <;> omega

lemma read16_bounds (m : Mem) (a : Int) : 0 ≤ read16 m a ∧ read16 m a < 65536 := by
  unfold read16
  have h1 := read8_bounds m a
  have h2 := read8_bounds m (a + 1)
  omega

lemma not_read16_ge (m : Mem) (a : Int) : ¬ 65536 ≤ read16 m a := by
  have := read16_bounds m a
  omega

lemma not_emod65536_ge (x : Int) : ¬ (65536 : Int) ≤ x % 65536 := by omega

/-- Schema of the per-addressing-form flag statements: whenever the
instruction at `IP` is the given flag-setting opcode (and its memory
operand, if 16-bit, fits below the end of memory), the successor flags
are exactly `updateFlags` of the form's raw result at its width. -/
def aluFormOk (opc : Int) (len : Int) (extra : CPUState → Prop)
    (raw : CPUState → Int) (w : CPUState → Bool) : Prop :=
  ∀ s : CPUState, 0 ≤ s.registers.IP → s.registers.IP + len ≤ 65536 →
    read8 s.memory s.registers.IP = opc → extra s →
    stepFlags s = .ok (updateFlags s.flags (raw s) (w s))

lemma c2_law (f : Flags) (res : Int) (is8 : Bool) :
    ((updateFlags f res is8).ZF = true ↔ res % (if is8 then 256 else 65536) = 0) ∧
    ((updateFlags f res is8).SF = true ↔
      (if is8 then (128 : Int) else 32768) ≤ res % (if is8 then 256 else 65536)) ∧
    ((updateFlags f res is8).CF = true ↔
      ((if is8 then (255 : Int) else 65535) < res ∨ res < 0)) ∧
    (updateFlags f res is8).PF = f.PF ∧ (updateFlags f res is8).AF = f.AF ∧
    (updateFlags f res is8).TF = f.TF ∧ (updateFlags f res is8).IF = f.IF ∧
    (updateFlags f res is8).DF = f.DF ∧ (updateFlags f res is8).OF = f.OF := by
  cases is8 <;> simp [updateFlags]

lemma c2_not (s : CPUState)
    (h0 : 0 ≤ s.registers.IP) (h1 : s.registers.IP + 2 ≤ 65536)
    (hop : read8 s.memory s.registers.IP = 0xF8) :
    stepFlags s = .ok s.flags := by
  have hni : ¬ (65536 ≤ s.registers.IP) := by omega
  simp only [stepFlags, executeInstruction, hop, Int.reduceToNat, if_neg hni, Except.map]
  norm_num

lemma c2_add_rr (s : CPUState)
    (h0 : 0 ≤ s.registers.IP) (h1 : s.registers.IP + 2 ≤ 65536)
    (hop : read8 s.memory s.registers.IP = 32) :
    stepFlags s = .ok (updateFlags s.flags (getReg s.registers (packedDest s) + getReg s.registers (packedSrc s)) (decide (packedDest s < 8))) := by
  have hni : ¬ (65536 ≤ s.registers.IP) := by omega
  have e2 : s.registers.IP + 1 + 1 = s.registers.IP + 2 := by ring
  have e3 : s.registers.IP + 1 + 2 = s.registers.IP + 3 := by ring
  have e4 : s.registers.IP + 1 + 3 = s.registers.IP + 4 := by ring
  simp only [stepFlags, executeInstruction, hop, Int.reduceToNat, if_neg hni, e2, e3, e4,
    opByte, opWord, destId, packedDest, packedSrc, Except.map]
  norm_num

lemma c2_sub_rr (s : CPUState)
    (h0 : 0 ≤ s.registers.IP) (h1 : s.registers.IP + 2 ≤ 65536)
    (hop : read8 s.memory s.registers.IP = 48) :
    stepFlags s = .ok (updateFlags s.flags (getReg s.registers (packedDest s) - getReg s.registers (packedSrc s)) (decide (packedDest s < 8))) := by
  have hni : ¬ (65536 ≤ s.registers.IP) := by omega
  have e2 : s.registers.IP + 1 + 1 = s.registers.IP + 2 := by ring
  have e3 : s.registers.IP + 1 + 2 = s.registers.IP + 3 := by ring
  have e4 : s.registers.IP + 1 + 3 = s.registers.IP + 4 := by ring
  simp only [stepFlags, executeInstruction, hop, Int.reduceToNat, if_neg hni, e2, e3, e4,
    opByte, opWord, destId, packedDest, packedSrc, Except.map]
  norm_num

lemma c2_cmp_rr (s : CPUState)
    (h0 : 0 ≤ s.registers.IP) (h1 : s.registers.IP + 2 ≤ 65536)
    (hop : read8 s.memory s.registers.IP = 56) :
    stepFlags s = .ok (updateFlags s.flags (getReg s.registers (packedDest s) - getReg s.registers (packedSrc s)) (decide (packedDest s < 8))) := by
  have hni : ¬ (65536 ≤ s.registers.IP) := by omega
  have e2 : s.registers.IP + 1 + 1 = s.registers.IP + 2 := by ring
  have e3 : s.registers.IP + 1 + 2 = s.registers.IP + 3 := by ring
  have e4 : s.registers.IP + 1 + 3 = s.registers.IP + 4 := by ring
  simp only [stepFlags, executeInstruction, hop, Int.reduceToNat, if_neg hni, e2, e3, e4,
    opByte, opWord, destId, packedDest, packedSrc, Except.map]
  norm_num

lemma c2_and_rr (s : CPUState)
    (h0 : 0 ≤ s.registers.IP) (h1 : s.registers.IP + 2 ≤ 65536)
    (hop : read8 s.memory s.registers.IP = 34) :
    stepFlags s = .ok (updateFlags s.flags (jsAnd (getReg s.registers (packedDest s)) (getReg s.registers (packedSrc s))) (decide (packedDest s < 8))) := by
  have hni : ¬ (65536 ≤ s.registers.IP) := by omega
  have e2 : s.registers.IP + 1 + 1 = s.registers.IP + 2 := by ring
  have e3 : s.registers.IP + 1 + 2 = s.registers.IP + 3 := by ring
  have e4 : s.registers.IP + 1 + 3 = s.registers.IP + 4 := by ring
  simp only [stepFlags, executeInstruction, hop, Int.reduceToNat, if_neg hni, e2, e3, e4,
    opByte, opWord, destId, packedDest, packedSrc, Except.map]
  norm_num

lemma c2_or_rr (s : CPUState)
    (h0 : 0 ≤ s.registers.IP) (h1 : s.registers.IP + 2 ≤ 65536)
    (hop : read8 s.memory s.registers.IP = 10) :
    stepFlags s = .ok (updateFlags s.flags (jsOr (getReg s.registers (packedDest s)) (getReg s.registers (packedSrc s))) (decide (packedDest s < 8))) := by
  have hni : ¬ (65536 ≤ s.registers.IP) := by omega
  have e2 : s.registers.IP + 1 + 1 = s.registers.IP + 2 := by ring
  have e3 : s.registers.IP + 1 + 2 = s.registers.IP + 3 := by ring
  have e4 : s.registers.IP + 1 + 3 = s.registers.IP + 4 := by ring
  simp only [stepFlags, executeInstruction, hop, Int.reduceToNat, if_neg hni, e2, e3, e4,
    opByte, opWord, destId, packedDest, packedSrc, Except.map]
  norm_num

lemma c2_xor_rr (s : CPUState)
    (h0 : 0 ≤ s.registers.IP) (h1 : s.registers.IP + 2 ≤ 65536)
    (hop : read8 s.memory s.registers.IP = 50) :
    stepFlags s = .ok (updateFlags s.flags (jsXor (getReg s.registers (packedDest s)) (getReg s.registers (packedSrc s))) (decide (packedDest s < 8))) := by
  have hni : ¬ (65536 ≤ s.registers.IP) := by omega
  have e2 : s.registers.IP + 1 + 1 = s.registers.IP + 2 := by ring
  have e3 : s.registers.IP + 1 + 2 = s.registers.IP + 3 := by ring
  have e4 : s.registers.IP + 1 + 3 = s.registers.IP + 4 := by ring
  simp only [stepFlags, executeInstruction, hop, Int.reduceToNat, if_neg hni, e2, e3, e4,
    opByte, opWord, destId, packedDest, packedSrc, Except.map]
  norm_num

lemma c2_add_ri (s : CPUState)
    (h0 : 0 ≤ s.registers.IP) (h1 : s.registers.IP + 4 ≤ 65536)
    (hop : read8 s.memory s.registers.IP = 33) :
    stepFlags s = .ok (updateFlags s.flags (getReg s.registers (destId s) + opWord s 2) (decide (destId s < 8))) := by
  have hni : ¬ (65536 ≤ s.registers.IP) := by omega
  have e2 : s.registers.IP + 1 + 1 = s.registers.IP + 2 := by ring
  have e3 : s.registers.IP + 1 + 2 = s.registers.IP + 3 := by ring
  have e4 : s.registers.IP + 1 + 3 = s.registers.IP + 4 := by ring
  simp only [stepFlags, executeInstruction, hop, Int.reduceToNat, if_neg hni, e2, e3, e4,
    opByte, opWord, destId, packedDest, packedSrc, Except.map]
  norm_num

lemma c2_sub_ri (s : CPUState)
    (h0 : 0 ≤ s.registers.IP) (h1 : s.registers.IP + 4 ≤ 65536)
    (hop : read8 s.memory s.registers.IP = 49) :
    stepFlags s = .ok (updateFlags s.flags (getReg s.registers (destId s) - opWord s 2) (decide (destId s < 8))) := by
  have hni : ¬ (65536 ≤ s.registers.IP) := by omega
  have e2 : s.registers.IP + 1 + 1 = s.registers.IP + 2 := by ring
  have e3 : s.registers.IP + 1 + 2 = s.registers.IP + 3 := by ring
  have e4 : s.registers.IP + 1 + 3 = s.registers.IP + 4 := by ring
  simp only [stepFlags, executeInstruction, hop, Int.reduceToNat, if_neg hni, e2, e3, e4,
    opByte, opWord, destId, packedDest, packedSrc, Except.map]
  norm_num

lemma c2_cmp_ri (s : CPUState)
    (h0 : 0 ≤ s.registers.IP) (h1 : s.registers.IP + 4 ≤ 65536)
    (hop : read8 s.memory s.registers.IP = 57) :
    stepFlags s = .ok (updateFlags s.flags (getReg s.registers (destId s) - opWord s 2) (decide (destId s < 8))) := by
  have hni : ¬ (65536 ≤ s.registers.IP) := by omega
  have e2 : s.registers.IP + 1 + 1 = s.registers.IP + 2 := by ring
  have e3 : s.registers.IP + 1 + 2 = s.registers.IP + 3 := by ring
  have e4 : s.registers.IP + 1 + 3 = s.registers.IP + 4 := by ring
  simp only [stepFlags, executeInstruction, hop, Int.reduceToNat, if_neg hni, e2, e3, e4,
    opByte, opWord, destId, packedDest, packedSrc, Except.map]
  norm_num

lemma c2_and_ri (s : CPUState)
    (h0 : 0 ≤ s.registers.IP) (h1 : s.registers.IP + 4 ≤ 65536)
    (hop : read8 s.memory s.registers.IP = 35) :
    stepFlags s = .ok (updateFlags s.flags (jsAnd (getReg s.registers (destId s)) (opWord s 2)) (decide (destId s < 8))) := by
  have hni : ¬ (65536 ≤ s.registers.IP) := by omega
  have e2 : s.registers.IP + 1 + 1 = s.registers.IP + 2 := by ring
  have e3 : s.registers.IP + 1 + 2 = s.registers.IP + 3 := by ring
  have e4 : s.registers.IP + 1 + 3 = s.registers.IP + 4 := by ring
  simp only [stepFlags, executeInstruction, hop, Int.reduceToNat, if_neg hni, e2, e3, e4,
    opByte, opWord, destId, packedDest, packedSrc, Except.map]
  norm_num

lemma c2_or_ri (s : CPUState)
    (h0 : 0 ≤ s.registers.IP) (h1 : s.registers.IP + 4 ≤ 65536)
    (hop : read8 s.memory s.registers.IP = 11) :
    stepFlags s = .ok (updateFlags s.flags (jsOr (getReg s.registers (destId s)) (opWord s 2)) (decide (destId s < 8))) := by
  have hni : ¬ (65536 ≤ s.registers.IP) := by omega
  have e2 : s.registers.IP + 1 + 1 = s.registers.IP + 2 := by ring
  have e3 : s.registers.IP + 1 + 2 = s.registers.IP + 3 := by ring
  have e4 : s.registers.IP + 1 + 3 = s.registers.IP + 4 := by ring
  simp only [stepFlags, executeInstruction, hop, Int.reduceToNat, if_neg hni, e2, e3, e4,
    opByte, opWord, destId, packedDest, packedSrc, Except.map]
  norm_num

lemma c2_xor_ri (s : CPUState)
    (h0 : 0 ≤ s.registers.IP) (h1 : s.registers.IP + 4 ≤ 65536)
    (hop : read8 s.memory s.registers.IP = 51) :
    stepFlags s = .ok (updateFlags s.flags (jsXor (getReg s.registers (destId s)) (opWord s 2)) (decide (destId s < 8))) := by
  have hni : ¬ (65536 ≤ s.registers.IP) := by omega
  have e2 : s.registers.IP + 1 + 1 = s.registers.IP + 2 := by ring
  have e3 : s.registers.IP + 1 + 2 = s.registers.IP + 3 := by ring
  have e4 : s.registers.IP + 1 + 3 = s.registers.IP + 4 := by ring
  simp only [stepFlags, executeInstruction, hop, Int.reduceToNat, if_neg hni, e2, e3, e4,
    opByte, opWord, destId, packedDest, packedSrc, Except.map]
  norm_num

lemma c2_add_rm (s : CPUState)
    (h0 : 0 ≤ s.registers.IP) (h1 : s.registers.IP + 4 ≤ 65536)
    (hop : read8 s.memory s.registers.IP = 36)
    (hw : 8 ≤ destId s → opWord s 2 + 1 < 65536) :
    stepFlags s = .ok (updateFlags s.flags (getReg s.registers (destId s) + (if destId s < 8 then read8 s.memory (opWord s 2) else read16 s.memory (opWord s 2))) (decide (destId s < 8))) := by
  have hni : ¬ (65536 ≤ s.registers.IP) := by omega
  have e2 : s.registers.IP + 1 + 1 = s.registers.IP + 2 := by ring
  have e3 : s.registers.IP + 1 + 2 = s.registers.IP + 3 := by ring
  have e4 : s.registers.IP + 1 + 3 = s.registers.IP + 4 := by ring
  by_cases hd : (read8 s.memory (s.registers.IP + 1)).toNat < 8
  · simp only [stepFlags, executeInstruction, hop, Int.reduceToNat, if_neg hni, e2, e3, e4,
      opByte, opWord, destId, packedDest, packedSrc, Except.map]
    norm_num [loadVal, hd, not_read16_ge, not_emod65536_ge]
  · have hb : ¬ 65536 ≤ read16 s.memory (s.registers.IP + 2) + 1 := by
      have h := hw (by unfold destId opByte at *; omega)
      unfold opWord at h; omega
    simp only [stepFlags, executeInstruction, hop, Int.reduceToNat, if_neg hni, e2, e3, e4,
      opByte, opWord, destId, packedDest, packedSrc, Except.map]
    norm_num [loadVal, hd, hb]

lemma c2_sub_rm (s : CPUState)
    (h0 : 0 ≤ s.registers.IP) (h1 : s.registers.IP + 4 ≤ 65536)
    (hop : read8 s.memory s.registers.IP = 52)
    (hw : 8 ≤ destId s → opWord s 2 + 1 < 65536) :
    stepFlags s = .ok (updateFlags s.flags (getReg s.registers (destId s) - (if destId s < 8 then read8 s.memory (opWord s 2) else read16 s.memory (opWord s 2))) (decide (destId s < 8))) := by
  have hni : ¬ (65536 ≤ s.registers.IP) := by omega
  have e2 : s.registers.IP + 1 + 1 = s.registers.IP + 2 := by ring
  have e3 : s.registers.IP + 1 + 2 = s.registers.IP + 3 := by ring
  have e4 : s.registers.IP + 1 + 3 = s.registers.IP + 4 := by ring
  by_cases hd : (read8 s.memory (s.registers.IP + 1)).toNat < 8
  · simp only [stepFlags, executeInstruction, hop, Int.reduceToNat, if_neg hni, e2, e3, e4,
      opByte, opWord, destId, packedDest, packedSrc, Except.map]
    norm_num [loadVal, hd, not_read16_ge, not_emod65536_ge]
  · have hb : ¬ 65536 ≤ read16 s.memory (s.registers.IP + 2) + 1 := by
      have h := hw (by unfold destId opByte at *; omega)
      unfold opWord at h; omega
    simp only [stepFlags, executeInstruction, hop, Int.reduceToNat, if_neg hni, e2, e3, e4,
      opByte, opWord, destId, packedDest, packedSrc, Except.map]
    norm_num [loadVal, hd, hb]

lemma c2_cmp_rm (s : CPUState)
    (h0 : 0 ≤ s.registers.IP) (h1 : s.registers.IP + 4 ≤ 65536)
    (hop : read8 s.memory s.registers.IP = 60)
    (hw : 8 ≤ destId s → opWord s 2 + 1 < 65536) :
    stepFlags s = .ok (updateFlags s.flags (getReg s.registers (destId s) - (if destId s < 8 then read8 s.memory (opWord s 2) else read16 s.memory (opWord s 2))) (decide (destId s < 8))) := by
  have hni : ¬ (65536 ≤ s.registers.IP) := by omega
  have e2 : s.registers.IP + 1 + 1 = s.registers.IP + 2 := by ring
  have e3 : s.registers.IP + 1 + 2 = s.registers.IP + 3 := by ring
  have e4 : s.registers.IP + 1 + 3 = s.registers.IP + 4 := by ring
  by_cases hd : (read8 s.memory (s.registers.IP + 1)).toNat < 8
  · simp only [stepFlags, executeInstruction, hop, Int.reduceToNat, if_neg hni, e2, e3, e4,
      opByte, opWord, destId, packedDest, packedSrc, Except.map]
    norm_num [loadVal, hd, not_read16_ge, not_emod65536_ge]
  · have hb : ¬ 65536 ≤ read16 s.memory (s.registers.IP + 2) + 1 := by
      have h := hw (by unfold destId opByte at *; omega)
      unfold opWord at h; omega
    simp only [stepFlags, executeInstruction, hop, Int.reduceToNat, if_neg hni, e2, e3, e4,
      opByte, opWord, destId, packedDest, packedSrc, Except.map]
    norm_num [loadVal, hd, hb]

lemma c2_and_rm (s : CPUState)
    (h0 : 0 ≤ s.registers.IP) (h1 : s.registers.IP + 4 ≤ 65536)
    (hop : read8 s.memory s.registers.IP = 38)
    (hw : 8 ≤ destId s → opWord s 2 + 1 < 65536) :
    stepFlags s = .ok (updateFlags s.flags (jsAnd (getReg s.registers (destId s)) ((if destId s < 8 then read8 s.memory (opWord s 2) else read16 s.memory (opWord s 2)))) (decide (destId s < 8))) := by
  have hni : ¬ (65536 ≤ s.registers.IP) := by omega
  have e2 : s.registers.IP + 1 + 1 = s.registers.IP + 2 := by ring
  have e3 : s.registers.IP + 1 + 2 = s.registers.IP + 3 := by ring
  have e4 : s.registers.IP + 1 + 3 = s.registers.IP + 4 := by ring
  by_cases hd : (read8 s.memory (s.registers.IP + 1)).toNat < 8
  · simp only [stepFlags, executeInstruction, hop, Int.reduceToNat, if_neg hni, e2, e3, e4,
      opByte, opWord, destId, packedDest, packedSrc, Except.map]
    norm_num [loadVal, hd, not_read16_ge, not_emod65536_ge]
  · have hb : ¬ 65536 ≤ read16 s.memory (s.registers.IP + 2) + 1 := by
      have h := hw (by unfold destId opByte at *; omega)
      unfold opWord at h; omega
    simp only [stepFlags, executeInstruction, hop, Int.reduceToNat, if_neg hni, e2, e3, e4,
      opByte, opWord, destId, packedDest, packedSrc, Except.map]
    norm_num [loadVal, hd, hb]

lemma c2_or_rm (s : CPUState)
    (h0 : 0 ≤ s.registers.IP) (h1 : s.registers.IP + 4 ≤ 65536)
    (hop : read8 s.memory s.registers.IP = 12)
    (hw : 8 ≤ destId s → opWord s 2 + 1 < 65536) :
    stepFlags s = .ok (updateFlags s.flags (jsOr (getReg s.registers (destId s)) ((if destId s < 8 then read8 s.memory (opWord s 2) else read16 s.memory (opWord s 2)))) (decide (destId s < 8))) := by
  have hni : ¬ (65536 ≤ s.registers.IP) := by omega
  have e2 : s.registers.IP + 1 + 1 = s.registers.IP + 2 := by ring
  have e3 : s.registers.IP + 1 + 2 = s.registers.IP + 3 := by ring
  have e4 : s.registers.IP + 1 + 3 = s.registers.IP + 4 := by ring
  by_cases hd : (read8 s.memory (s.registers.IP + 1)).toNat < 8
  · simp only [stepFlags, executeInstruction, hop, Int.reduceToNat, if_neg hni, e2, e3, e4,
      opByte, opWord, destId, packedDest, packedSrc, Except.map]
    norm_num [loadVal, hd, not_read16_ge, not_emod65536_ge]
  · have hb : ¬ 65536 ≤ read16 s.memory (s.registers.IP + 2) + 1 := by
      have h := hw (by unfold destId opByte at *; omega)
      unfold opWord at h; omega
    simp only [stepFlags, executeInstruction, hop, Int.reduceToNat, if_neg hni, e2, e3, e4,
      opByte, opWord, destId, packedDest, packedSrc, Except.map]
    norm_num [loadVal, hd, hb]

lemma c2_xor_rm (s : CPUState)
    (h0 : 0 ≤ s.registers.IP) (h1 : s.registers.IP + 4 ≤ 65536)
    (hop : read8 s.memory s.registers.IP = 54)
    (hw : 8 ≤ destId s → opWord s 2 + 1 < 65536) :
    stepFlags s = .ok (updateFlags s.flags (jsXor (getReg s.registers (destId s)) ((if destId s < 8 then read8 s.memory (opWord s 2) else read16 s.memory (opWord s 2)))) (decide (destId s < 8))) := by
  have hni : ¬ (65536 ≤ s.registers.IP) := by omega
  have e2 : s.registers.IP + 1 + 1 = s.registers.IP + 2 := by ring
  have e3 : s.registers.IP + 1 + 2 = s.registers.IP + 3 := by ring
  have e4 : s.registers.IP + 1 + 3 = s.registers.IP + 4 := by ring
  by_cases hd : (read8 s.memory (s.registers.IP + 1)).toNat < 8
  · simp only [stepFlags, executeInstruction, hop, Int.reduceToNat, if_neg hni, e2, e3, e4,
      opByte, opWord, destId, packedDest, packedSrc, Except.map]
    norm_num [loadVal, hd, not_read16_ge, not_emod65536_ge]
  · have hb : ¬ 65536 ≤ read16 s.memory (s.registers.IP + 2) + 1 := by
      have h := hw (by unfold destId opByte at *; omega)
      unfold opWord at h; omega
    simp only [stepFlags, executeInstruction, hop, Int.reduceToNat, if_neg hni, e2, e3, e4,
      opByte, opWord, destId, packedDest, packedSrc, Except.map]
    norm_num [loadVal, hd, hb]

lemma c2_add_rx (s : CPUState)
    (h0 : 0 ≤ s.registers.IP) (h1 : s.registers.IP + 5 ≤ 65536)
    (hop : read8 s.memory s.registers.IP = 37)
    (hw : 8 ≤ destId s → ((opWord s 3 + getReg s.registers (opByte s 2).toNat) % 65536) + 1 < 65536) :
    stepFlags s = .ok (updateFlags s.flags (getReg s.registers (destId s) + (if destId s < 8 then read8 s.memory ((opWord s 3 + getReg s.registers (opByte s 2).toNat) % 65536) else read16 s.memory ((opWord s 3 + getReg s.registers (opByte s 2).toNat) % 65536))) (decide (destId s < 8))) := by
  have hni : ¬ (65536 ≤ s.registers.IP) := by omega
  have e2 : s.registers.IP + 1 + 1 = s.registers.IP + 2 := by ring
  have e3 : s.registers.IP + 1 + 2 = s.registers.IP + 3 := by ring
  have e4 : s.registers.IP + 1 + 3 = s.registers.IP + 4 := by ring
  by_cases hd : (read8 s.memory (s.registers.IP + 1)).toNat < 8
  · simp only [stepFlags, executeInstruction, hop, Int.reduceToNat, if_neg hni, e2, e3, e4,
      opByte, opWord, destId, packedDest, packedSrc, Except.map]
    norm_num [loadVal, hd, not_read16_ge, not_emod65536_ge]
  · have hb : ¬ 65536 ≤ (read16 s.memory (s.registers.IP + 3) +
        getReg s.registers (read8 s.memory (s.registers.IP + 2)).toNat) % 65536 + 1 := by
      have h := hw (by unfold destId opByte at *; omega)
      unfold opWord opByte at h; omega
    simp only [stepFlags, executeInstruction, hop, Int.reduceToNat, if_neg hni, e2, e3, e4,
      opByte, opWord, destId, packedDest, packedSrc, Except.map]
    norm_num [loadVal, hd, hb]

lemma c2_sub_rx (s : CPUState)
    (h0 : 0 ≤ s.registers.IP) (h1 : s.registers.IP + 5 ≤ 65536)
    (hop : read8 s.memory s.registers.IP = 53)
    (hw : 8 ≤ destId s → ((opWord s 3 + getReg s.registers (opByte s 2).toNat) % 65536) + 1 < 65536) :
    stepFlags s = .ok (updateFlags s.flags (getReg s.registers (destId s) - (if destId s < 8 then read8 s.memory ((opWord s 3 + getReg s.registers (opByte s 2).toNat) % 65536) else read16 s.memory ((opWord s 3 + getReg s.registers (opByte s 2).toNat) % 65536))) (decide (destId s < 8))) := by
  have hni : ¬ (65536 ≤ s.registers.IP) := by omega
  have e2 : s.registers.IP + 1 + 1 = s.registers.IP + 2 := by ring
  have e3 : s.registers.IP + 1 + 2 = s.registers.IP + 3 := by ring
  have e4 : s.registers.IP + 1 + 3 = s.registers.IP + 4 := by ring
  by_cases hd : (read8 s.memory (s.registers.IP + 1)).toNat < 8
  · simp only [stepFlags, executeInstruction, hop, Int.reduceToNat, if_neg hni, e2, e3, e4,
      opByte, opWord, destId, packedDest, packedSrc, Except.map]
    norm_num [loadVal, hd, not_read16_ge, not_emod65536_ge]
  · have hb : ¬ 65536 ≤ (read16 s.memory (s.registers.IP + 3) +
        getReg s.registers (read8 s.memory (s.registers.IP + 2)).toNat) % 65536 + 1 := by
      have h := hw (by unfold destId opByte at *; omega)
      unfold opWord opByte at h; omega
    simp only [stepFlags, executeInstruction, hop, Int.reduceToNat, if_neg hni, e2, e3, e4,
      opByte, opWord, destId, packedDest, packedSrc, Except.map]
    norm_num [loadVal, hd, hb]

lemma c2_cmp_rx (s : CPUState)
    (h0 : 0 ≤ s.registers.IP) (h1 : s.registers.IP + 5 ≤ 65536)
    (hop : read8 s.memory s.registers.IP = 61)
    (hw : 8 ≤ destId s → ((opWord s 3 + getReg s.registers (opByte s 2).toNat) % 65536) + 1 < 65536) :
    stepFlags s = .ok (updateFlags s.flags (getReg s.registers (destId s) - (if destId s < 8 then read8 s.memory ((opWord s 3 + getReg s.registers (opByte s 2).toNat) % 65536) else read16 s.memory ((opWord s 3 + getReg s.registers (opByte s 2).toNat) % 65536))) (decide (destId s < 8))) := by
  have hni : ¬ (65536 ≤ s.registers.IP) := by omega
  have e2 : s.registers.IP + 1 + 1 = s.registers.IP + 2 := by ring
  have e3 : s.registers.IP + 1 + 2 = s.registers.IP + 3 := by ring
  have e4 : s.registers.IP + 1 + 3 = s.registers.IP + 4 := by ring
  by_cases hd : (read8 s.memory (s.registers.IP + 1)).toNat < 8
  · simp only [stepFlags, executeInstruction, hop, Int.reduceToNat, if_neg hni, e2, e3, e4,
      opByte, opWord, destId, packedDest, packedSrc, Except.map]
    norm_num [loadVal, hd, not_read16_ge, not_emod65536_ge]
  · have hb : ¬ 65536 ≤ (read16 s.memory (s.registers.IP + 3) +
        getReg s.registers (read8 s.memory (s.registers.IP + 2)).toNat) % 65536 + 1 := by
      have h := hw (by unfold destId opByte at *; omega)
      unfold opWord opByte at h; omega
    simp only [stepFlags, executeInstruction, hop, Int.reduceToNat, if_neg hni, e2, e3, e4,
      opByte, opWord, destId, packedDest, packedSrc, Except.map]
    norm_num [loadVal, hd, hb]

lemma c2_and_rx (s : CPUState)
    (h0 : 0 ≤ s.registers.IP) (h1 : s.registers.IP + 5 ≤ 65536)
    (hop : read8 s.memory s.registers.IP = 39)
    (hw : 8 ≤ destId s → ((opWord s 3 + getReg s.registers (opByte s 2).toNat) % 65536) + 1 < 65536) :
    stepFlags s = .ok (updateFlags s.flags (jsAnd (getReg s.registers (destId s)) ((if destId s < 8 then read8 s.memory ((opWord s 3 + getReg s.registers (opByte s 2).toNat) % 65536) else read16 s.memory ((opWord s 3 + getReg s.registers (opByte s 2).toNat) % 65536)))) (decide (destId s < 8))) := by
  have hni : ¬ (65536 ≤ s.registers.IP) := by omega
  have e2 : s.registers.IP + 1 + 1 = s.registers.IP + 2 := by ring
  have e3 : s.registers.IP + 1 + 2 = s.registers.IP + 3 := by ring
  have e4 : s.registers.IP + 1 + 3 = s.registers.IP + 4 := by ring
  by_cases hd : (read8 s.memory (s.registers.IP + 1)).toNat < 8
  · simp only [stepFlags, executeInstruction, hop, Int.reduceToNat, if_neg hni, e2, e3, e4,
      opByte, opWord, destId, packedDest, packedSrc, Except.map]
    norm_num [loadVal, hd, not_read16_ge, not_emod65536_ge]
  · have hb : ¬ 65536 ≤ (read16 s.memory (s.registers.IP + 3) +
        getReg s.registers (read8 s.memory (s.registers.IP + 2)).toNat) % 65536 + 1 := by
      have h := hw (by unfold destId opByte at *; omega)
      unfold opWord opByte at h; omega
    simp only [stepFlags, executeInstruction, hop, Int.reduceToNat, if_neg hni, e2, e3, e4,
      opByte, opWord, destId, packedDest, packedSrc, Except.map]
    norm_num [loadVal, hd, hb]

lemma c2_or_rx (s : CPUState)
    (h0 : 0 ≤ s.registers.IP) (h1 : s.registers.IP + 5 ≤ 65536)
    (hop : read8 s.memory s.registers.IP = 13)
    (hw : 8 ≤ destId s → ((opWord s 3 + getReg s.registers (opByte s 2).toNat) % 65536) + 1 < 65536) :
    stepFlags s = .ok (updateFlags s.flags (jsOr (getReg s.registers (destId s)) ((if destId s < 8 then read8 s.memory ((opWord s 3 + getReg s.registers (opByte s 2).toNat) % 65536) else read16 s.memory ((opWord s 3 + getReg s.registers (opByte s 2).toNat) % 65536)))) (decide (destId s < 8))) := by
  have hni : ¬ (65536 ≤ s.registers.IP) := by omega
  have e2 : s.registers.IP + 1 + 1 = s.registers.IP + 2 := by ring
  have e3 : s.registers.IP + 1 + 2 = s.registers.IP + 3 := by ring
  have e4 : s.registers.IP + 1 + 3 = s.registers.IP + 4 := by ring
  by_cases hd : (read8 s.memory (s.registers.IP + 1)).toNat < 8
  · simp only [stepFlags, executeInstruction, hop, Int.reduceToNat, if_neg hni, e2, e3, e4,
      opByte, opWord, destId, packedDest, packedSrc, Except.map]
    norm_num [loadVal, hd, not_read16_ge, not_emod65536_ge]
  · have hb : ¬ 65536 ≤ (read16 s.memory (s.registers.IP + 3) +
        getReg s.registers (read8 s.memory (s.registers.IP + 2)).toNat) % 65536 + 1 := by
      have h := hw (by unfold destId opByte at *; omega)
      unfold opWord opByte at h; omega
    simp only [stepFlags, executeInstruction, hop, Int.reduceToNat, if_neg hni, e2, e3, e4,
      opByte, opWord, destId, packedDest, packedSrc, Except.map]
    norm_num [loadVal, hd, hb]

lemma c2_xor_rx (s : CPUState)
    (h0 : 0 ≤ s.registers.IP) (h1 : s.registers.IP + 5 ≤ 65536)
    (hop : read8 s.memory s.registers.IP = 55)
    (hw : 8 ≤ destId s → ((opWord s 3 + getReg s.registers (opByte s 2).toNat) % 65536) + 1 < 65536) :
    stepFlags s = .ok (updateFlags s.flags (jsXor (getReg s.registers (destId s)) ((if destId s < 8 then read8 s.memory ((opWord s 3 + getReg s.registers (opByte s 2).toNat) % 65536) else read16 s.memory ((opWord s 3 + getReg s.registers (opByte s 2).toNat) % 65536)))) (decide (destId s < 8))) := by
  have hni : ¬ (65536 ≤ s.registers.IP) := by omega
  have e2 : s.registers.IP + 1 + 1 = s.registers.IP + 2 := by ring
  have e3 : s.registers.IP + 1 + 2 = s.registers.IP + 3 := by ring
  have e4 : s.registers.IP + 1 + 3 = s.registers.IP + 4 := by ring
  by_cases hd : (read8 s.memory (s.registers.IP + 1)).toNat < 8
  · simp only [stepFlags, executeInstruction, hop, Int.reduceToNat, if_neg hni, e2, e3, e4,
      opByte, opWord, destId, packedDest, packedSrc, Except.map]
    norm_num [loadVal, hd, not_read16_ge, not_emod65536_ge]
  · have hb : ¬ 65536 ≤ (read16 s.memory (s.registers.IP + 3) +
        getReg s.registers (read8 s.memory (s.registers.IP + 2)).toNat) % 65536 + 1 := by
      have h := hw (by unfold destId opByte at *; omega)
      unfold opWord opByte at h; omega
    simp only [stepFlags, executeInstruction, hop, Int.reduceToNat, if_neg hni, e2, e3, e4,
      opByte, opWord, destId, packedDest, packedSrc, Except.map]
    norm_num [loadVal, hd, hb]

lemma c2_sub_mr (s : CPUState)
    (h0 : 0 ≤ s.registers.IP) (h1 : s.registers.IP + 4 ≤ 65536)
    (hop : read8 s.memory s.registers.IP = 148)
    (hw : 8 ≤ (opByte s 3).toNat → opWord s 1 + 1 < 65536) :
    stepFlags s = .ok (updateFlags s.flags ((if (opByte s 3).toNat < 8 then read8 s.memory (opWord s 1) else read16 s.memory (opWord s 1)) - getReg s.registers (opByte s 3).toNat) (decide ((opByte s 3).toNat < 8))) := by
  have hni : ¬ (65536 ≤ s.registers.IP) := by omega
  have e2 : s.registers.IP + 1 + 1 = s.registers.IP + 2 := by ring
  have e3 : s.registers.IP + 1 + 2 = s.registers.IP + 3 := by ring
  have e4 : s.registers.IP + 1 + 3 = s.registers.IP + 4 := by ring
  by_cases hd : (read8 s.memory (s.registers.IP + 3)).toNat < 8
  · simp only [stepFlags, executeInstruction, hop, Int.reduceToNat, if_neg hni, e2, e3, e4,
      opByte, opWord, destId, packedDest, packedSrc, Except.map]
    norm_num [loadVal, storeVal, hd, not_read16_ge, not_emod65536_ge]
  · have hb : ¬ 65536 ≤ read16 s.memory (s.registers.IP + 1) + 1 := by
      have h := hw (by unfold opByte at *; omega)
      unfold opWord at h; omega
    simp only [stepFlags, executeInstruction, hop, Int.reduceToNat, if_neg hni, e2, e3, e4,
      opByte, opWord, destId, packedDest, packedSrc, Except.map]
    norm_num [loadVal, storeVal, hd, hb]

lemma c2_cmp_mr (s : CPUState)
    (h0 : 0 ≤ s.registers.IP) (h1 : s.registers.IP + 4 ≤ 65536)
    (hop : read8 s.memory s.registers.IP = 62)
    (hw : 8 ≤ (opByte s 3).toNat → opWord s 1 + 1 < 65536) :
    stepFlags s = .ok (updateFlags s.flags ((if (opByte s 3).toNat < 8 then read8 s.memory (opWord s 1) else read16 s.memory (opWord s 1)) - getReg s.registers (opByte s 3).toNat) (decide ((opByte s 3).toNat < 8))) := by
  have hni : ¬ (65536 ≤ s.registers.IP) := by omega
  have e2 : s.registers.IP + 1 + 1 = s.registers.IP + 2 := by ring
  have e3 : s.registers.IP + 1 + 2 = s.registers.IP + 3 := by ring
  have e4 : s.registers.IP + 1 + 3 = s.registers.IP + 4 := by ring
  by_cases hd : (read8 s.memory (s.registers.IP + 3)).toNat < 8
  · simp only [stepFlags, executeInstruction, hop, Int.reduceToNat, if_neg hni, e2, e3, e4,
      opByte, opWord, destId, packedDest, packedSrc, Except.map]
    norm_num [loadVal, storeVal, hd, not_read16_ge, not_emod65536_ge]
  · have hb : ¬ 65536 ≤ read16 s.memory (s.registers.IP + 1) + 1 := by
      have h := hw (by unfold opByte at *; omega)
      unfold opWord at h; omega
    simp only [stepFlags, executeInstruction, hop, Int.reduceToNat, if_neg hni, e2, e3, e4,
      opByte, opWord, destId, packedDest, packedSrc, Except.map]
    norm_num [loadVal, storeVal, hd, hb]

lemma c2_add_xr (s : CPUState)
    (h0 : 0 ≤ s.registers.IP) (h1 : s.registers.IP + 5 ≤ 65536)
    (hop : read8 s.memory s.registers.IP = 145)
    (hw : 8 ≤ (opByte s 4).toNat → ((opWord s 2 + getReg s.registers (opByte s 1).toNat) % 65536) + 1 < 65536) :
    stepFlags s = .ok (updateFlags s.flags ((if (opByte s 4).toNat < 8 then read8 s.memory ((opWord s 2 + getReg s.registers (opByte s 1).toNat) % 65536) else read16 s.memory ((opWord s 2 + getReg s.registers (opByte s 1).toNat) % 65536)) + getReg s.registers (opByte s 4).toNat) (decide ((opByte s 4).toNat < 8))) := by
  have hni : ¬ (65536 ≤ s.registers.IP) := by omega
  have e2 : s.registers.IP + 1 + 1 = s.registers.IP + 2 := by ring
  have e3 : s.registers.IP + 1 + 2 = s.registers.IP + 3 := by ring
  have e4 : s.registers.IP + 1 + 3 = s.registers.IP + 4 := by ring
  by_cases hd : (read8 s.memory (s.registers.IP + 4)).toNat < 8
  · simp only [stepFlags, executeInstruction, hop, Int.reduceToNat, if_neg hni, e2, e3, e4,
      opByte, opWord, destId, packedDest, packedSrc, Except.map]
    norm_num [loadVal, storeVal, hd, not_read16_ge, not_emod65536_ge]
  · have hb : ¬ 65536 ≤ (read16 s.memory (s.registers.IP + 2) +
        getReg s.registers (read8 s.memory (s.registers.IP + 1)).toNat) % 65536 + 1 := by
      have h := hw (by unfold opByte at *; omega)
      unfold opWord opByte at h; omega
    simp only [stepFlags, executeInstruction, hop, Int.reduceToNat, if_neg hni, e2, e3, e4,
      opByte, opWord, destId, packedDest, packedSrc, Except.map]
    norm_num [loadVal, storeVal, hd, hb]

lemma c2_cmp_xr (s : CPUState)
    (h0 : 0 ≤ s.registers.IP) (h1 : s.registers.IP + 5 ≤ 65536)
    (hop : read8 s.memory s.registers.IP = 63)
    (hw : 8 ≤ (opByte s 4).toNat → ((opWord s 2 + getReg s.registers (opByte s 1).toNat) % 65536) + 1 < 65536) :
    stepFlags s = .ok (updateFlags s.flags ((if (opByte s 4).toNat < 8 then read8 s.memory ((opWord s 2 + getReg s.registers (opByte s 1).toNat) % 65536) else read16 s.memory ((opWord s 2 + getReg s.registers (opByte s 1).toNat) % 65536)) - getReg s.registers (opByte s 4).toNat) (decide ((opByte s 4).toNat < 8))) := by
  have hni : ¬ (65536 ≤ s.registers.IP) := by omega
  have e2 : s.registers.IP + 1 + 1 = s.registers.IP + 2 := by ring
  have e3 : s.registers.IP + 1 + 2 = s.registers.IP + 3 := by ring
  have e4 : s.registers.IP + 1 + 3 = s.registers.IP + 4 := by ring
  by_cases hd : (read8 s.memory (s.registers.IP + 4)).toNat < 8
  · simp only [stepFlags, executeInstruction, hop, Int.reduceToNat, if_neg hni, e2, e3, e4,
      opByte, opWord, destId, packedDest, packedSrc, Except.map]
    norm_num [loadVal, storeVal, hd, not_read16_ge, not_emod65536_ge]
  · have hb : ¬ 65536 ≤ (read16 s.memory (s.registers.IP + 2) +
        getReg s.registers (read8 s.memory (s.registers.IP + 1)).toNat) % 65536 + 1 := by
      have h := hw (by unfold opByte at *; omega)
      unfold opWord opByte at h; omega
    simp only [stepFlags, executeInstruction, hop, Int.reduceToNat, if_neg hni, e2, e3, e4,
      opByte, opWord, destId, packedDest, packedSrc, Except.map]
    norm_num [loadVal, storeVal, hd, hb]

lemma c2_add_mi (s : CPUState)
    (h0 : 0 ≤ s.registers.IP) (h1 : s.registers.IP + 4 ≤ 65536)
    (hop : read8 s.memory s.registers.IP = 146) :
    stepFlags s = .ok (updateFlags s.flags (read8 s.memory (opWord s 1) + opByte s 3) true) := by
  have hni : ¬ (65536 ≤ s.registers.IP) := by omega
  have e2 : s.registers.IP + 1 + 1 = s.registers.IP + 2 := by ring
  have e3 : s.registers.IP + 1 + 2 = s.registers.IP + 3 := by ring
  have e4 : s.registers.IP + 1 + 3 = s.registers.IP + 4 := by ring
  simp only [stepFlags, executeInstruction, hop, Int.reduceToNat, if_neg hni, e2, e3, e4,
    opByte, opWord, destId, packedDest, packedSrc, Except.map]
  norm_num [not_read16_ge, not_emod65536_ge]

lemma c2_sub_mi (s : CPUState)
    (h0 : 0 ≤ s.registers.IP) (h1 : s.registers.IP + 4 ≤ 65536)
    (hop : read8 s.memory s.registers.IP = 150) :
    stepFlags s = .ok (updateFlags s.flags (read8 s.memory (opWord s 1) - opByte s 3) true) := by
  have hni : ¬ (65536 ≤ s.registers.IP) := by omega
  have e2 : s.registers.IP + 1 + 1 = s.registers.IP + 2 := by ring
  have e3 : s.registers.IP + 1 + 2 = s.registers.IP + 3 := by ring
  have e4 : s.registers.IP + 1 + 3 = s.registers.IP + 4 := by ring
  simp only [stepFlags, executeInstruction, hop, Int.reduceToNat, if_neg hni, e2, e3, e4,
    opByte, opWord, destId, packedDest, packedSrc, Except.map]
  norm_num [not_read16_ge, not_emod65536_ge]

lemma c2_cmp_mi (s : CPUState)
    (h0 : 0 ≤ s.registers.IP) (h1 : s.registers.IP + 4 ≤ 65536)
    (hop : read8 s.memory s.registers.IP = 66) :
    stepFlags s = .ok (updateFlags s.flags (read8 s.memory (opWord s 1) - opByte s 3) true) := by
  have hni : ¬ (65536 ≤ s.registers.IP) := by omega
  have e2 : s.registers.IP + 1 + 1 = s.registers.IP + 2 := by ring
  have e3 : s.registers.IP + 1 + 2 = s.registers.IP + 3 := by ring
  have e4 : s.registers.IP + 1 + 3 = s.registers.IP + 4 := by ring
  simp only [stepFlags, executeInstruction, hop, Int.reduceToNat, if_neg hni, e2, e3, e4,
    opByte, opWord, destId, packedDest, packedSrc, Except.map]
  norm_num [not_read16_ge, not_emod65536_ge]

lemma c2_add_xi (s : CPUState)
    (h0 : 0 ≤ s.registers.IP) (h1 : s.registers.IP + 5 ≤ 65536)
    (hop : read8 s.memory s.registers.IP = 147) :
    stepFlags s = .ok (updateFlags s.flags (read8 s.memory ((opWord s 2 + getReg s.registers (opByte s 1).toNat) % 65536) + opByte s 4) true) := by
  have hni : ¬ (65536 ≤ s.registers.IP) := by omega
  have e2 : s.registers.IP + 1 + 1 = s.registers.IP + 2 := by ring
  have e3 : s.registers.IP + 1 + 2 = s.registers.IP + 3 := by ring
  have e4 : s.registers.IP + 1 + 3 = s.registers.IP + 4 := by ring
  simp only [stepFlags, executeInstruction, hop, Int.reduceToNat, if_neg hni, e2, e3, e4,
    opByte, opWord, destId, packedDest, packedSrc, Except.map]
  norm_num [not_read16_ge, not_emod65536_ge]

lemma c2_cmp_xi (s : CPUState)
    (h0 : 0 ≤ s.registers.IP) (h1 : s.registers.IP + 5 ≤ 65536)
    (hop : read8 s.memory s.registers.IP = 67) :
    stepFlags s = .ok (updateFlags s.flags (read8 s.memory ((opWord s 2 + getReg s.registers (opByte s 1).toNat) % 65536) - opByte s 4) true) := by
  have hni : ¬ (65536 ≤ s.registers.IP) := by omega
  have e2 : s.registers.IP + 1 + 1 = s.registers.IP + 2 := by ring
  have e3 : s.registers.IP + 1 + 2 = s.registers.IP + 3 := by ring
  have e4 : s.registers.IP + 1 + 3 = s.registers.IP + 4 := by ring
  simp only [stepFlags, executeInstruction, hop, Int.reduceToNat, if_neg hni, e2, e3, e4,
    opByte, opWord, destId, packedDest, packedSrc, Except.map]
  norm_num [not_read16_ge, not_emod65536_ge]

lemma c2_inc_r (s : CPUState)
    (h0 : 0 ≤ s.registers.IP) (h1 : s.registers.IP + 2 ≤ 65536)
    (hop : read8 s.memory s.registers.IP = 64) :
    stepFlags s = .ok (updateFlags s.flags (getReg s.registers (destId s) + 1) (decide (destId s < 8))) := by
  have hni : ¬ (65536 ≤ s.registers.IP) := by omega
  have e2 : s.registers.IP + 1 + 1 = s.registers.IP + 2 := by ring
  have e3 : s.registers.IP + 1 + 2 = s.registers.IP + 3 := by ring
  have e4 : s.registers.IP + 1 + 3 = s.registers.IP + 4 := by ring
  simp only [stepFlags, executeInstruction, hop, Int.reduceToNat, if_neg hni, e2, e3, e4,
    opByte, opWord, destId, packedDest, packedSrc, Except.map]
  norm_num

lemma c2_dec_r (s : CPUState)
    (h0 : 0 ≤ s.registers.IP) (h1 : s.registers.IP + 2 ≤ 65536)
    (hop : read8 s.memory s.registers.IP = 65) :
    stepFlags s = .ok (updateFlags s.flags (getReg s.registers (destId s) - 1) (decide (destId s < 8))) := by
  have hni : ¬ (65536 ≤ s.registers.IP) := by omega
  have e2 : s.registers.IP + 1 + 1 = s.registers.IP + 2 := by ring
  have e3 : s.registers.IP + 1 + 2 = s.registers.IP + 3 := by ring
  have e4 : s.registers.IP + 1 + 3 = s.registers.IP + 4 := by ring
  simp only [stepFlags, executeInstruction, hop, Int.reduceToNat, if_neg hni, e2, e3, e4,
    opByte, opWord, destId, packedDest, packedSrc, Except.map]
  norm_num

lemma c2_inc_m (s : CPUState)
    (h0 : 0 ≤ s.registers.IP) (h1 : s.registers.IP + 3 ≤ 65536)
    (hop : read8 s.memory s.registers.IP = 164) :
    stepFlags s = .ok (updateFlags s.flags (read8 s.memory (opWord s 1) + 1) true) := by
  have hni : ¬ (65536 ≤ s.registers.IP) := by omega
  have e2 : s.registers.IP + 1 + 1 = s.registers.IP + 2 := by ring
  have e3 : s.registers.IP + 1 + 2 = s.registers.IP + 3 := by ring
  have e4 : s.registers.IP + 1 + 3 = s.registers.IP + 4 := by ring
  simp only [stepFlags, executeInstruction, hop, Int.reduceToNat, if_neg hni, e2, e3, e4,
    opByte, opWord, destId, packedDest, packedSrc, Except.map]
  norm_num [not_read16_ge, not_emod65536_ge]

lemma c2_inc_x (s : CPUState)
    (h0 : 0 ≤ s.registers.IP) (h1 : s.registers.IP + 4 ≤ 65536)
    (hop : read8 s.memory s.registers.IP = 165) :
    stepFlags s = .ok (updateFlags s.flags (read8 s.memory ((opWord s 2 + getReg s.registers (opByte s 1).toNat) % 65536) + 1) true) := by
  have hni : ¬ (65536 ≤ s.registers.IP) := by omega
  have e2 : s.registers.IP + 1 + 1 = s.registers.IP + 2 := by ring
  have e3 : s.registers.IP + 1 + 2 = s.registers.IP + 3 := by ring
  have e4 : s.registers.IP + 1 + 3 = s.registers.IP + 4 := by ring
  simp only [stepFlags, executeInstruction, hop, Int.reduceToNat, if_neg hni, e2, e3, e4,
    opByte, opWord, destId, packedDest, packedSrc, Except.map]
  norm_num [not_read16_ge, not_emod65536_ge]


/-- C2 (amended): for every arithmetic/logic instruction form that the
decoder dispatches to a flag-updating handler — `ADD` r,r / r,imm /
r,[addr] / r,[idx] / [idx],r / [addr],imm / [idx],imm; `SUB` r,r / r,imm /
r,[addr] / r,[idx] / [addr],r / [addr],imm; `CMP` in all eight forms;
`AND`/`OR`/`XOR` r,r / r,imm / r,[addr] / r,[idx]; `INC` r / [addr] /
[idx]; `DEC` r — the flags after execution are exactly `updateFlags` of
the raw (untruncated) result at the destination width, so `ZF` holds iff
`(raw & width_mask) == 0`, `SF` holds iff `(raw & width_msb) != 0`, `CF`
holds iff `raw > width_max ∨ raw < 0`, and the remaining six flags are
untouched (first conjunct); and `NOT` leaves all flags unchanged (second
conjunct). The remaining addressing forms listed by the claim are *not*
flag-setting on this CPU: `ADD [addr],r` assembles to opcode `0x90`,
which the decoder executes as `NOP` (see the counterexample), and the
`SUB [idx],r / [idx],imm`, `AND`/`OR`/`XOR` to-memory, and `DEC`
memory forms have no decoder case at all. -/
theorem claim_C2 :
    (∀ (f : Flags) (res : Int) (is8 : Bool),
      ((updateFlags f res is8).ZF = true ↔ res % (if is8 then 256 else 65536) = 0) ∧
      ((updateFlags f res is8).SF = true ↔
        (if is8 then (128 : Int) else 32768) ≤ res % (if is8 then 256 else 65536)) ∧
      ((updateFlags f res is8).CF = true ↔
        ((if is8 then (255 : Int) else 65535) < res ∨ res < 0)) ∧
      (updateFlags f res is8).PF = f.PF ∧ (updateFlags f res is8).AF = f.AF ∧
      (updateFlags f res is8).TF = f.TF ∧ (updateFlags f res is8).IF = f.IF ∧
      (updateFlags f res is8).DF = f.DF ∧ (updateFlags f res is8).OF = f.OF) ∧
    (∀ s : CPUState, 0 ≤ s.registers.IP → s.registers.IP + 2 ≤ 65536 →
      read8 s.memory s.registers.IP = 0xF8 → stepFlags s = .ok s.flags) ∧
    aluFormOk 32 2 (fun _ => True)
      (fun s => (getReg s.registers (packedDest s) + getReg s.registers (packedSrc s)))
      (fun s => (decide (packedDest s < 8))) ∧
    aluFormOk 48 2 (fun _ => True)
      (fun s => (getReg s.registers (packedDest s) - getReg s.registers (packedSrc s)))
      (fun s => (decide (packedDest s < 8))) ∧
    aluFormOk 56 2 (fun _ => True)
      (fun s => (getReg s.registers (packedDest s) - getReg s.registers (packedSrc s)))
      (fun s => (decide (packedDest s < 8))) ∧
    aluFormOk 34 2 (fun _ => True)
      (fun s => (jsAnd (getReg s.registers (packedDest s)) (getReg s.registers (packedSrc s))))
      (fun s => (decide (packedDest s < 8))) ∧
    aluFormOk 10 2 (fun _ => True)
      (fun s => (jsOr (getReg s.registers (packedDest s)) (getReg s.registers (packedSrc s))))
      (fun s => (decide (packedDest s < 8))) ∧
    aluFormOk 50 2 (fun _ => True)
      (fun s => (jsXor (getReg s.registers (packedDest s)) (getReg s.registers (packedSrc s))))
      (fun s => (decide (packedDest s < 8))) ∧
    aluFormOk 33 4 (fun _ => True)
      (fun s => (getReg s.registers (destId s) + opWord s 2))
      (fun s => (decide (destId s < 8))) ∧
    aluFormOk 49 4 (fun _ => True)
      (fun s => (getReg s.registers (destId s) - opWord s 2))
      (fun s => (decide (destId s < 8))) ∧
    aluFormOk 57 4 (fun _ => True)
      (fun s => (getReg s.registers (destId s) - opWord s 2))
      (fun s => (decide (destId s < 8))) ∧
    aluFormOk 35 4 (fun _ => True)
      (fun s => (jsAnd (getReg s.registers (destId s)) (opWord s 2)))
      (fun s => (decide (destId s < 8))) ∧
    aluFormOk 11 4 (fun _ => True)
      (fun s => (jsOr (getReg s.registers (destId s)) (opWord s 2)))
      (fun s => (decide (destId s < 8))) ∧
    aluFormOk 51 4 (fun _ => True)
      (fun s => (jsXor (getReg s.registers (destId s)) (opWord s 2)))
      (fun s => (decide (destId s < 8))) ∧
    aluFormOk 36 4 (fun s => (8 ≤ destId s → opWord s 2 + 1 < 65536))
      (fun s => (getReg s.registers (destId s) + (if destId s < 8 then read8 s.memory (opWord s 2) else read16 s.memory (opWord s 2))))
      (fun s => (decide (destId s < 8))) ∧
    aluFormOk 52 4 (fun s => (8 ≤ destId s → opWord s 2 + 1 < 65536))
      (fun s => (getReg s.registers (destId s) - (if destId s < 8 then read8 s.memory (opWord s 2) else read16 s.memory (opWord s 2))))
      (fun s => (decide (destId s < 8))) ∧
    aluFormOk 60 4 (fun s => (8 ≤ destId s → opWord s 2 + 1 < 65536))
      (fun s => (getReg s.registers (destId s) - (if destId s < 8 then read8 s.memory (opWord s 2) else read16 s.memory (opWord s 2))))
      (fun s => (decide (destId s < 8))) ∧
    aluFormOk 38 4 (fun s => (8 ≤ destId s → opWord s 2 + 1 < 65536))
      (fun s => (jsAnd (getReg s.registers (destId s)) ((if destId s < 8 then read8 s.memory (opWord s 2) else read16 s.memory (opWord s 2)))))
      (fun s => (decide (destId s < 8))) ∧
    aluFormOk 12 4 (fun s => (8 ≤ destId s → opWord s 2 + 1 < 65536))
      (fun s => (jsOr (getReg s.registers (destId s)) ((if destId s < 8 then read8 s.memory (opWord s 2) else read16 s.memory (opWord s 2)))))
      (fun s => (decide (destId s < 8))) ∧
    aluFormOk 54 4 (fun s => (8 ≤ destId s → opWord s 2 + 1 < 65536))
      (fun s => (jsXor (getReg s.registers (destId s)) ((if destId s < 8 then read8 s.memory (opWord s 2) else read16 s.memory (opWord s 2)))))
      (fun s => (decide (destId s < 8))) ∧
    aluFormOk 37 5 (fun s => (8 ≤ destId s → ((opWord s 3 + getReg s.registers (opByte s 2).toNat) % 65536) + 1 < 65536))
      (fun s => (getReg s.registers (destId s) + (if destId s < 8 then read8 s.memory ((opWord s 3 + getReg s.registers (opByte s 2).toNat) % 65536) else read16 s.memory ((opWord s 3 + getReg s.registers (opByte s 2).toNat) % 65536))))
      (fun s => (decide (destId s < 8))) ∧
    aluFormOk 53 5 (fun s => (8 ≤ destId s → ((opWord s 3 + getReg s.registers (opByte s 2).toNat) % 65536) + 1 < 65536))
      (fun s => (getReg s.registers (destId s) - (if destId s < 8 then read8 s.memory ((opWord s 3 + getReg s.registers (opByte s 2).toNat) % 65536) else read16 s.memory ((opWord s 3 + getReg s.registers (opByte s 2).toNat) % 65536))))
      (fun s => (decide (destId s < 8))) ∧
    aluFormOk 61 5 (fun s => (8 ≤ destId s → ((opWord s 3 + getReg s.registers (opByte s 2).toNat) % 65536) + 1 < 65536))
      (fun s => (getReg s.registers (destId s) - (if destId s < 8 then read8 s.memory ((opWord s 3 + getReg s.registers (opByte s 2).toNat) % 65536) else read16 s.memory ((opWord s 3 + getReg s.registers (opByte s 2).toNat) % 65536))))
      (fun s => (decide (destId s < 8))) ∧
    aluFormOk 39 5 (fun s => (8 ≤ destId s → ((opWord s 3 + getReg s.registers (opByte s 2).toNat) % 65536) + 1 < 65536))
      (fun s => (jsAnd (getReg s.registers (destId s)) ((if destId s < 8 then read8 s.memory ((opWord s 3 + getReg s.registers (opByte s 2).toNat) % 65536) else read16 s.memory ((opWord s 3 + getReg s.registers (opByte s 2).toNat) % 65536)))))
      (fun s => (decide (destId s < 8))) ∧
    aluFormOk 13 5 (fun s => (8 ≤ destId s → ((opWord s 3 + getReg s.registers (opByte s 2).toNat) % 65536) + 1 < 65536))
      (fun s => (jsOr (getReg s.registers (destId s)) ((if destId s < 8 then read8 s.memory ((opWord s 3 + getReg s.registers (opByte s 2).toNat) % 65536) else read16 s.memory ((opWord s 3 + getReg s.registers (opByte s 2).toNat) % 65536)))))
      (fun s => (decide (destId s < 8))) ∧
    aluFormOk 55 5 (fun s => (8 ≤ destId s → ((opWord s 3 + getReg s.registers (opByte s 2).toNat) % 65536) + 1 < 65536))
      (fun s => (jsXor (getReg s.registers (destId s)) ((if destId s < 8 then read8 s.memory ((opWord s 3 + getReg s.registers (opByte s 2).toNat) % 65536) else read16 s.memory ((opWord s 3 + getReg s.registers (opByte s 2).toNat) % 65536)))))
      (fun s => (decide (destId s < 8))) ∧
    aluFormOk 148 4 (fun s => (8 ≤ (opByte s 3).toNat → opWord s 1 + 1 < 65536))
      (fun s => ((if (opByte s 3).toNat < 8 then read8 s.memory (opWord s 1) else read16 s.memory (opWord s 1)) - getReg s.registers (opByte s 3).toNat))
      (fun s => (decide ((opByte s 3).toNat < 8))) ∧
    aluFormOk 62 4 (fun s => (8 ≤ (opByte s 3).toNat → opWord s 1 + 1 < 65536))
      (fun s => ((if (opByte s 3).toNat < 8 then read8 s.memory (opWord s 1) else read16 s.memory (opWord s 1)) - getReg s.registers (opByte s 3).toNat))
      (fun s => (decide ((opByte s 3).toNat < 8))) ∧
    aluFormOk 145 5 (fun s => (8 ≤ (opByte s 4).toNat → ((opWord s 2 + getReg s.registers (opByte s 1).toNat) % 65536) + 1 < 65536))
      (fun s => ((if (opByte s 4).toNat < 8 then read8 s.memory ((opWord s 2 + getReg s.registers (opByte s 1).toNat) % 65536) else read16 s.memory ((opWord s 2 + getReg s.registers (opByte s 1).toNat) % 65536)) + getReg s.registers (opByte s 4).toNat))
      (fun s => (decide ((opByte s 4).toNat < 8))) ∧
    aluFormOk 63 5 (fun s => (8 ≤ (opByte s 4).toNat → ((opWord s 2 + getReg s.registers (opByte s 1).toNat) % 65536) + 1 < 65536))
      (fun s => ((if (opByte s 4).toNat < 8 then read8 s.memory ((opWord s 2 + getReg s.registers (opByte s 1).toNat) % 65536) else read16 s.memory ((opWord s 2 + getReg s.registers (opByte s 1).toNat) % 65536)) - getReg s.registers (opByte s 4).toNat))
      (fun s => (decide ((opByte s 4).toNat < 8))) ∧
    aluFormOk 146 4 (fun _ => True)
      (fun s => (read8 s.memory (opWord s 1) + opByte s 3))
      (fun _ => true) ∧
    aluFormOk 150 4 (fun _ => True)
      (fun s => (read8 s.memory (opWord s 1) - opByte s 3))
      (fun _ => true) ∧
    aluFormOk 66 4 (fun _ => True)
      (fun s => (read8 s.memory (opWord s 1) - opByte s 3))
      (fun _ => true) ∧
    aluFormOk 147 5 (fun _ => True)
      (fun s => (read8 s.memory ((opWord s 2 + getReg s.registers (opByte s 1).toNat) % 65536) + opByte s 4))
      (fun _ => true) ∧
    aluFormOk 67 5 (fun _ => True)
      (fun s => (read8 s.memory ((opWord s 2 + getReg s.registers (opByte s 1).toNat) % 65536) - opByte s 4))
      (fun _ => true) ∧
    aluFormOk 64 2 (fun _ => True)
      (fun s => (getReg s.registers (destId s) + 1))
      (fun s => (decide (destId s < 8))) ∧
    aluFormOk 65 2 (fun _ => True)
      (fun s => (getReg s.registers (destId s) - 1))
      (fun s => (decide (destId s < 8))) ∧
    aluFormOk 164 3 (fun _ => True)
      (fun s => (read8 s.memory (opWord s 1) + 1))
      (fun _ => true) ∧
    aluFormOk 165 4 (fun _ => True)
      (fun s => (read8 s.memory ((opWord s 2 + getReg s.registers (opByte s 1).toNat) % 65536) + 1))
      (fun _ => true) :=
  ⟨c2_law,
   c2_not,
   fun s h0 h1 hop _ => c2_add_rr s h0 h1 hop,
   fun s h0 h1 hop _ => c2_sub_rr s h0 h1 hop,
   fun s h0 h1 hop _ => c2_cmp_rr s h0 h1 hop,
   fun s h0 h1 hop _ => c2_and_rr s h0 h1 hop,
   fun s h0 h1 hop _ => c2_or_rr s h0 h1 hop,
   fun s h0 h1 hop _ => c2_xor_rr s h0 h1 hop,
   fun s h0 h1 hop _ => c2_add_ri s h0 h1 hop,
   fun s h0 h1 hop _ => c2_sub_ri s h0 h1 hop,
   fun s h0 h1 hop _ => c2_cmp_ri s h0 h1 hop,
   fun s h0 h1 hop _ => c2_and_ri s h0 h1 hop,
   fun s h0 h1 hop _ => c2_or_ri s h0 h1 hop,
   fun s h0 h1 hop _ => c2_xor_ri s h0 h1 hop,
   fun s h0 h1 hop hw => c2_add_rm s h0 h1 hop hw,
   fun s h0 h1 hop hw => c2_sub_rm s h0 h1 hop hw,
   fun s h0 h1 hop hw => c2_cmp_rm s h0 h1 hop hw,
   fun s h0 h1 hop hw => c2_and_rm s h0 h1 hop hw,
   fun s h0 h1 hop hw => c2_or_rm s h0 h1 hop hw,
   fun s h0 h1 hop hw => c2_xor_rm s h0 h1 hop hw,
   fun s h0 h1 hop hw => c2_add_rx s h0 h1 hop hw,
   fun s h0 h1 hop hw => c2_sub_rx s h0 h1 hop hw,
   fun s h0 h1 hop hw => c2_cmp_rx s h0 h1 hop hw,
   fun s h0 h1 hop hw => c2_and_rx s h0 h1 hop hw,
   fun s h0 h1 hop hw => c2_or_rx s h0 h1 hop hw,
   fun s h0 h1 hop hw => c2_xor_rx s h0 h1 hop hw,
   fun s h0 h1 hop hw => c2_sub_mr s h0 h1 hop hw,
   fun s h0 h1 hop hw => c2_cmp_mr s h0 h1 hop hw,
   fun s h0 h1 hop hw => c2_add_xr s h0 h1 hop hw,
   fun s h0 h1 hop hw => c2_cmp_xr s h0 h1 hop hw,
   fun s h0 h1 hop _ => c2_add_mi s h0 h1 hop,
   fun s h0 h1 hop _ => c2_sub_mi s h0 h1 hop,
   fun s h0 h1 hop _ => c2_cmp_mi s h0 h1 hop,
   fun s h0 h1 hop _ => c2_add_xi s h0 h1 hop,
   fun s h0 h1 hop _ => c2_cmp_xi s h0 h1 hop,
   fun s h0 h1 hop _ => c2_inc_r s h0 h1 hop,
   fun s h0 h1 hop _ => c2_dec_r s h0 h1 hop,
   fun s h0 h1 hop _ => c2_inc_m s h0 h1 hop,
   fun s h0 h1 hop _ => c2_inc_x s h0 h1 hop⟩

def c2state : CPUState :=
  mkState (memOf [(256, 0x90), (257, 0x00), (258, 0x02), (259, 0x00), (512, 1)])
    { INITIAL_REGISTERS with AX := 1 } { INITIAL_FLAGS with ZF := true }

/-- The claim as stated ("in every addressing form") is false for the
`ADD [addr],reg` form: the assembler encodes `ADD [200H], AL` with opcode
`0x90` (first conjunct), which collides with `NOP`; executing it at
`c2state` (where `AL = 1` and `[0x200] = 1`, so the raw `ADD` result is
`2`) leaves the flags completely unchanged with `ZF` still set (second
conjunct), although `(2 & 0xFF) ≠ 0` (third conjunct), contradicting
`ZF ⇔ (result & width_mask) == 0` for that form. -/
theorem claim_C2_counterexample :
    encodeInstruction "ADD".toList ["[200H]".toList, "AL".toList] [] 0 false =
      .ok [0x90, 0x00, 0x02, 0x00] ∧
    stepFlags c2state = .ok { INITIAL_FLAGS with ZF := true } ∧
    ¬ ((1 + 1 : Int) % 256 = 0) := by
  refine ⟨by rfl, by rfl, by decide⟩

def c2w1 : CPUState :=
  mkState (memOf [(256, 0x20), (257, 0x01)]) INITIAL_REGISTERS INITIAL_FLAGS

def c2w2 : CPUState :=
  mkState (memOf [(256, 0xF8), (257, 8)]) INITIAL_REGISTERS INITIAL_FLAGS

def c2w3 : CPUState :=
  mkState (memOf [(256, 0x24), (257, 8), (258, 0), (259, 2)]) INITIAL_REGISTERS
    INITIAL_FLAGS

theorem claim_C2_witness :
    read8 c2w1.memory c2w1.registers.IP = 0x20 ∧
    stepFlags c2w1 = .ok (updateFlags c2w1.flags
      (getReg c2w1.registers (packedDest c2w1) + getReg c2w1.registers (packedSrc c2w1))
      (decide (packedDest c2w1 < 8))) ∧
    stepFlags c2w2 = .ok c2w2.flags ∧
    stepFlags c2w3 = .ok (updateFlags c2w3.flags
      (getReg c2w3.registers (destId c2w3) +
        (if destId c2w3 < 8 then read8 c2w3.memory (opWord c2w3 2)
         else read16 c2w3.memory (opWord c2w3 2)))
      (decide (destId c2w3 < 8))) := by
  obtain ⟨hlaw, hnot, hrr, _, _, _, _, _, _, _, _, _, _, _, hrm, _⟩ := claim_C2
  exact ⟨by decide,
    hrr c2w1 (by decide) (by decide) (by decide) trivial,
    hnot c2w2 (by decide) (by decide) (by decide),
    hrm c2w3 (by decide) (by decide) (by decide) (fun _ => by decide)⟩

end AsmEmu
